import Mathlib

/-!
Verification of the dga2025 panel-construction and analysis pipeline.

Shallow embedding of the Python sources into Lean 4:
pandas DataFrames become lists of structures, SQL aggregation becomes
grouping over lists, numeric columns use `ℚ` (exact arithmetic in place
of IEEE floats), and randomness (numpy bootstrap resampling) becomes an
explicit list of draws.  Each definition mirrors one function of the
repository; theorems settle the frozen claims about them.
-/

/- ---------------------------------------------------------------------
   Generic list helpers shared by the embeddings.
--------------------------------------------------------------------- -/

/-- Helper for `dedupFirst`: drop the elements already seen. -/
def dedupFirstAux [DecidableEq α] (seen : List α) : List α → List α
  | [] => []
  | a :: as => if a ∈ seen then dedupFirstAux seen as else a :: dedupFirstAux (a :: seen) as

/-- `pandas.DataFrame.drop_duplicates` keeps the first occurrence of each
value, preserving order.  (Mathlib's `List.dedup` keeps the last, so we
define a first-occurrence variant.) -/
def dedupFirst [DecidableEq α] (l : List α) : List α := dedupFirstAux [] l

theorem mem_dedupFirstAux [DecidableEq α] {a : α} :
    ∀ {seen l : List α}, a ∈ dedupFirstAux seen l ↔ a ∈ l ∧ a ∉ seen := by
  intro seen l
  induction l generalizing seen with
  | nil => simp [dedupFirstAux]
  | cons b bs ih =>
    rw [dedupFirstAux]
    by_cases hb : b ∈ seen
    · rw [if_pos hb, ih]
      constructor
      · rintro ⟨h1, h2⟩; exact ⟨List.mem_cons_of_mem _ h1, h2⟩
      · rintro ⟨h1, h2⟩
        rcases List.mem_cons.mp h1 with rfl | h1
        · exact absurd hb h2
        · exact ⟨h1, h2⟩
    · rw [if_neg hb]
      by_cases hab : a = b
      · subst hab; simp [hb]
      · simp only [List.mem_cons, hab, false_or, ih, List.mem_cons]

theorem mem_dedupFirst [DecidableEq α] {a : α} {l : List α} :
    a ∈ dedupFirst l ↔ a ∈ l := by
  rw [dedupFirst, mem_dedupFirstAux]
  simp

theorem nodup_dedupFirstAux [DecidableEq α] :
    ∀ (seen l : List α), (dedupFirstAux seen l).Nodup := by
  intro seen l
  induction l generalizing seen with
  | nil => simp [dedupFirstAux]
  | cons b bs ih =>
    rw [dedupFirstAux]
    by_cases hb : b ∈ seen
    · rw [if_pos hb]; exact ih seen
    · rw [if_neg hb]
      refine List.nodup_cons.mpr ⟨?_, ih (b :: seen)⟩
      intro hmem
      exact (mem_dedupFirstAux.mp hmem).2 (List.mem_cons_self b seen)

theorem nodup_dedupFirst [DecidableEq α] (l : List α) : (dedupFirst l).Nodup :=
  nodup_dedupFirstAux [] l

/- ---------------------------------------------------------------------
   C1: scraping/build_panel_cmn.py — fetch_cmn_base and build_flags
--------------------------------------------------------------------- -/

namespace CmnBase

/-- One row of `dwh_ind1.fact_cmn_fase` as selected by `fetch_cmn_base`. -/
structure FactRow where
  anio : Int
  sec_ejec : String
  fase_codigo : Int
  fuente : String
deriving DecidableEq, Repr

/-- One row of the frame returned by `fetch_cmn_base` (the SQL
`GROUP BY anio, sec_ejec` with `MAX(CASE ...)` indicator columns). -/
structure CmnRow where
  anio : Int
  sec_ejec : String
  has_f1 : Int
  has_f2 : Int
  has_f3 : Int
  has_mef : Int
  has_minedu : Int
  has_f1_mef : Int
  has_f2_mef : Int
  has_f3_mef : Int
  has_f1_minedu : Int
  has_f2_minedu : Int
  has_f3_minedu : Int
deriving DecidableEq, Repr

/-- `MAX(CASE WHEN cond THEN 1 ELSE 0 END)` over a group: 1 iff some row
of the group satisfies the condition. -/
def boolFlag (b : Bool) : Int := if b then 1 else 0

/-- `fetch_cmn_base`: group the fact rows by `(anio, sec_ejec)` and
compute the twelve indicator columns.  (The SQL orders groups by key;
we keep first-occurrence order, which no claim depends on.) -/
def fetch_cmn_base (facts : List FactRow) : List CmnRow :=
  (dedupFirst (facts.map (fun r => (r.anio, r.sec_ejec)))).map (fun k =>
    let grp := facts.filter (fun r => r.anio == k.1 && r.sec_ejec == k.2)
    { anio := k.1
      sec_ejec := k.2
      has_f1 := boolFlag (grp.any (fun r => r.fase_codigo == 1))
      has_f2 := boolFlag (grp.any (fun r => r.fase_codigo == 2))
      has_f3 := boolFlag (grp.any (fun r => r.fase_codigo == 3))
      has_mef := boolFlag (grp.any (fun r => r.fuente == "MEF"))
      has_minedu := boolFlag (grp.any (fun r => r.fuente == "MINEDU"))
      has_f1_mef := boolFlag (grp.any (fun r => r.fuente == "MEF" && r.fase_codigo == 1))
      has_f2_mef := boolFlag (grp.any (fun r => r.fuente == "MEF" && r.fase_codigo == 2))
      has_f3_mef := boolFlag (grp.any (fun r => r.fuente == "MEF" && r.fase_codigo == 3))
      has_f1_minedu := boolFlag (grp.any (fun r => r.fuente == "MINEDU" && r.fase_codigo == 1))
      has_f2_minedu := boolFlag (grp.any (fun r => r.fuente == "MINEDU" && r.fase_codigo == 2))
      has_f3_minedu := boolFlag (grp.any (fun r => r.fuente == "MINEDU" && r.fase_codigo == 3)) })

/-- The columns `build_flags` adds to each row. -/
structure FlaggedRow extends CmnRow where
  cumple_v4 : Int
  cumple_mef : Int
  cumple_minedu : Int
  cumple_cross : Int
deriving DecidableEq, Repr

/-- Row-wise body of `build_flags`. -/
def build_flags_row (r : CmnRow) : FlaggedRow :=
  let v4 := boolFlag (r.has_f1 == 1 && r.has_f2 == 1 && r.has_f3 == 1)
  let mef := boolFlag (r.has_f1_mef == 1 && r.has_f2_mef == 1 && r.has_f3_mef == 1)
  let minedu := boolFlag (r.has_f1_minedu == 1 && r.has_f2_minedu == 1 && r.has_f3_minedu == 1)
  { r with
    cumple_v4 := v4
    cumple_mef := mef
    cumple_minedu := minedu
    cumple_cross := boolFlag (v4 == 1 && mef == 0 && minedu == 0) }

/-- `build_flags`: the column assignments apply row-wise. -/
def build_flags (df : List CmnRow) : List FlaggedRow := df.map build_flags_row

theorem boolFlag_eq_one {b : Bool} : boolFlag b = 1 ↔ b = true := by
  cases b <;> simp [boolFlag]

theorem boolFlag_eq_zero {b : Bool} : boolFlag b = 0 ↔ b = false := by
  cases b <;> simp [boolFlag]

end CmnBase

/- ---------------------------------------------------------------------
   C10: scraping/utils.py — normalize_sec_ejec, and the inline
   `.str.replace(r"\D", "", regex=True)` digit filter used by the
   panel builders (build_panel_t1.read_padron and others).
--------------------------------------------------------------------- -/

namespace Keys

/-- Python whitespace as matched by `str.strip()` and `re` `\s` on the
ASCII range (space, tab, newline, carriage return, vertical tab, form
feed).  Non-ASCII whitespace is also stripped by Python; restricting the
model to the ASCII range is harmless here because every whitespace
character is removed by the later `[^0-9]` filter anyway. -/
def pyIsSpace (c : Char) : Bool :=
  c == ' ' || c == '\t' || c == '\n' || c == '\r' || c == '\x0b' || c == '\x0c'

/-- `str.strip()`: drop leading and trailing whitespace. -/
def pyStrip (l : List Char) : List Char :=
  ((l.dropWhile pyIsSpace).reverse.dropWhile pyIsSpace).reverse

/-- `utils.normalize_sec_ejec`.  `None` maps to `""`; otherwise the
value's string form is stripped, `re.sub(r"\s+", "", ·)` removes
whitespace and `re.sub(r"[^0-9]", "", ·)` keeps only ASCII digits.
(An `int` argument is covered by passing its decimal string form, which
is what `str(value)` produces.) -/
def normalize_sec_ejec (value : Option String) : String :=
  match value with
  | none => ""
  | some s =>
    let text := pyStrip s.toList
    let text := text.filter (fun c => !pyIsSpace c)
    let text := text.filter Char.isDigit
    String.mk text

/-- Python's `re` `\d` with Unicode matching (the default for `str`
patterns) matches every Unicode decimal digit (category Nd), not only
ASCII `0-9`.  We model the category on the ranges exercised in this
development: ASCII digits plus the Arabic-Indic, Extended Arabic-Indic,
Devanagari and fullwidth digit blocks. -/
def pyIsDecimalDigit (c : Char) : Bool :=
  c.isDigit
    || (0x660 ≤ c.toNat && c.toNat ≤ 0x669)
    || (0x6F0 ≤ c.toNat && c.toNat ≤ 0x6F9)
    || (0x966 ≤ c.toNat && c.toNat ≤ 0x96F)
    || (0xFF10 ≤ c.toNat && c.toNat ≤ 0xFF19)

/-- The inline normalization `df["sec_ejec"].astype(str).str.replace(r"\D", "", regex=True)`
used by `build_panel_t1.read_padron`, `build_panel_budget_muni`, and the
analysis scripts: remove every character that is not a Unicode decimal
digit. -/
def strip_non_digits_pandas (s : String) : String :=
  String.mk (s.toList.filter pyIsDecimalDigit)

theorem pyIsSpace_not_digit {c : Char} (h : pyIsSpace c = true) : c.isDigit = false := by
  simp only [pyIsSpace, Bool.or_eq_true, beq_iff_eq] at h
  rcases h with ((((h | h) | h) | h) | h) | h <;> subst h <;> decide

theorem filter_digit_dropWhile (l : List Char) :
    (l.dropWhile pyIsSpace).filter Char.isDigit = l.filter Char.isDigit := by
  induction l with
  | nil => simp
  | cons c cs ih =>
    by_cases hc : pyIsSpace c = true
    · rw [List.dropWhile_cons_of_pos hc, ih, List.filter_cons_of_neg]
      simp [pyIsSpace_not_digit hc]
    · rw [List.dropWhile_cons_of_neg (by simp [hc])]

theorem filter_digit_pyStrip (l : List Char) :
    (pyStrip l).filter Char.isDigit = l.filter Char.isDigit := by
  unfold pyStrip
  rw [List.filter_reverse, filter_digit_dropWhile, List.filter_reverse,
    List.reverse_reverse, filter_digit_dropWhile]

/-- The three steps of `normalize_sec_ejec` collapse to one ASCII digit
filter: stripping and whitespace removal only delete characters the
final `[^0-9]` substitution deletes anyway. -/
theorem normalize_some_eq (s : String) :
    normalize_sec_ejec (some s) = String.mk (s.toList.filter Char.isDigit) := by
  simp only [normalize_sec_ejec, List.filter_filter]
  have hpt : ∀ c : Char, (Char.isDigit c && !pyIsSpace c) = Char.isDigit c := by
    intro c
    by_cases hd : c.isDigit = true
    · rw [hd]
      by_cases hs : pyIsSpace c = true
      · rw [pyIsSpace_not_digit hs] at hd; cases hd
      · simp [hs]
    · simp [Bool.eq_false_iff.mpr hd]
  rw [List.filter_congr (fun c _ => hpt c), filter_digit_pyStrip]

end Keys

/- ---------------------------------------------------------------------
   Claim C1
--------------------------------------------------------------------- -/

namespace CmnBase

theorem build_flags_row_cumple (r : CmnRow) :
    (build_flags_row r).cumple_v4 =
      boolFlag (r.has_f1 == 1 && r.has_f2 == 1 && r.has_f3 == 1) := rfl

theorem build_flags_row_keeps (r : CmnRow) :
    (build_flags_row r).toCmnRow = r := rfl

theorem cumple_v4_eq_one_iff (r : CmnRow) :
    (build_flags_row r).cumple_v4 = 1 ↔
      (r.has_f1 = 1 ∧ r.has_f2 = 1 ∧ r.has_f3 = 1) := by
  rw [build_flags_row_cumple, boolFlag_eq_one]
  simp [Bool.and_eq_true, and_assoc]

theorem cumple_v4_eq_zero_iff (r : CmnRow) :
    (build_flags_row r).cumple_v4 = 0 ↔
      ¬ (r.has_f1 = 1 ∧ r.has_f2 = 1 ∧ r.has_f3 = 1) := by
  rw [build_flags_row_cumple, boolFlag_eq_zero, ← Bool.not_eq_true]
  simp [Bool.and_eq_true, and_assoc]

end CmnBase

/-- C1: in every row produced by `build_flags` over the grouped base of
`fetch_cmn_base`, the flag `cumple_v4` is `1` iff all three phase
indicators `has_f1`, `has_f2`, `has_f3` are `1` and `0` otherwise, and
it is a deterministic function of those three indicators alone: any row
agreeing on the three indicators receives the same `cumple_v4`. -/
theorem cumple_v4_three_phase_flag (facts : List CmnBase.FactRow) :
    ∀ row ∈ CmnBase.build_flags (CmnBase.fetch_cmn_base facts),
      (row.cumple_v4 = 1 ↔ (row.has_f1 = 1 ∧ row.has_f2 = 1 ∧ row.has_f3 = 1))
      ∧ (row.cumple_v4 = 0 ↔ ¬ (row.has_f1 = 1 ∧ row.has_f2 = 1 ∧ row.has_f3 = 1))
      ∧ (∀ s : CmnBase.CmnRow, s.has_f1 = row.has_f1 → s.has_f2 = row.has_f2 →
          s.has_f3 = row.has_f3 →
          (CmnBase.build_flags_row s).cumple_v4 = row.cumple_v4) := by
  intro row hrow
  obtain ⟨r, -, rfl⟩ := List.mem_map.mp hrow
  refine ⟨CmnBase.cumple_v4_eq_one_iff r, CmnBase.cumple_v4_eq_zero_iff r, ?_⟩
  intro s h1 h2 h3
  rw [CmnBase.build_flags_row_cumple, CmnBase.build_flags_row_cumple, h1, h2, h3]
  rfl

/-- Witness for C1 at a concrete fact table: the entity-year (2025,"1")
has all three phases recorded, and its produced row carries
`cumple_v4 = 1` together with the biconditional of the claim. -/
theorem cumple_v4_three_phase_flag_witness :
    (CmnBase.build_flags_row ⟨2025, "1", 1, 1, 1, 1, 1, 1, 1, 0, 0, 0, 1⟩) ∈
        CmnBase.build_flags (CmnBase.fetch_cmn_base
          [⟨2025, "1", 1, "MEF"⟩, ⟨2025, "1", 2, "MEF"⟩, ⟨2025, "1", 3, "MINEDU"⟩])
      ∧ ((CmnBase.build_flags_row ⟨2025, "1", 1, 1, 1, 1, 1, 1, 1, 0, 0, 0, 1⟩).cumple_v4 = 1
          ↔ ((1 : Int) = 1 ∧ (1 : Int) = 1 ∧ (1 : Int) = 1)) :=
  ⟨by decide,
    (cumple_v4_three_phase_flag
      [⟨2025, "1", 1, "MEF"⟩, ⟨2025, "1", 2, "MEF"⟩, ⟨2025, "1", 3, "MINEDU"⟩]
      _ (by decide)).1⟩

/- ---------------------------------------------------------------------
   Claim C10
--------------------------------------------------------------------- -/

/-- C10 counterexample: `normalize_sec_ejec` is not the single
normalization applied to `sec_ejec` across the sources.  The panel
builders use `.str.replace(r"\D", "", regex=True)`, which keeps every
Unicode decimal digit, while `normalize_sec_ejec` keeps only ASCII
digits; on the input "١23" (Arabic-Indic digit one followed by "23")
the two normalizations disagree, so the two key pipelines are not the
same function. -/
theorem normalize_sec_ejec_not_single_normalization :
    Keys.normalize_sec_ejec (some "١23") ≠ Keys.strip_non_digits_pandas "١23" := by
  decide

/-- C10 (amended): `normalize_sec_ejec` is total and idempotent — for
every input it returns a string of ASCII digits only (the empty string
for `None`), and applying it twice equals applying it once.  The panel
builders apply a different inline normalization (`\D` removal, which
also keeps non-ASCII Unicode digits); the two agree on every string
whose characters are ASCII, so keys drawn from ASCII sources are
consistent across the two pipelines. -/
theorem normalize_sec_ejec_spec :
    (∀ v : Option String, ((Keys.normalize_sec_ejec v).toList.all Char.isDigit)
      ∧ Keys.normalize_sec_ejec (some (Keys.normalize_sec_ejec v)) = Keys.normalize_sec_ejec v)
    ∧ Keys.normalize_sec_ejec none = ""
    ∧ (∀ s : String, (∀ c ∈ s.toList, c.toNat < 128) →
        Keys.strip_non_digits_pandas s = Keys.normalize_sec_ejec (some s)) := by
  have hmk : ∀ l : List Char, (String.mk l).toList = l := fun l => rfl
  refine ⟨?_, rfl, ?_⟩
  · intro v
    match v with
    | none =>
      constructor
      · decide
      · rfl
    | some s =>
      rw [Keys.normalize_some_eq]
      constructor
      · rw [hmk, List.all_eq_true]
        intro c hc
        exact (List.mem_filter.mp hc).2
      · rw [Keys.normalize_some_eq, hmk, List.filter_filter]
        congr 1
        exact List.filter_congr (fun c _ => by cases h : c.isDigit <;> simp [h])
  · intro s hs
    rw [Keys.normalize_some_eq, Keys.strip_non_digits_pandas]
    congr 1
    refine List.filter_congr (fun c hc => ?_)
    have hascii : c.toNat < 128 := hs c hc
    by_cases hd : c.isDigit = true
    · simp [Keys.pyIsDecimalDigit, hd]
    · have hd0 : c.isDigit = false := Bool.eq_false_iff.mpr hd
      have h660 : ¬ (0x660 ≤ c.toNat) := by omega
      have h6F0 : ¬ (0x6F0 ≤ c.toNat) := by omega
      have h966 : ¬ (0x966 ≤ c.toNat) := by omega
      have hFF10 : ¬ (0xFF10 ≤ c.toNat) := by omega
      simp [Keys.pyIsDecimalDigit, hd0, h660, h6F0, h966, hFF10]

/-- Witness for the amended C10 at a concrete key: on the ASCII input
" 00123-X" the pandas digit filter and `normalize_sec_ejec` agree, and
`normalize_sec_ejec` is idempotent there. -/
theorem normalize_sec_ejec_spec_witness :
    Keys.strip_non_digits_pandas " 00123-X" = Keys.normalize_sec_ejec (some " 00123-X")
      ∧ Keys.normalize_sec_ejec (some (Keys.normalize_sec_ejec (some " 00123-X")))
          = Keys.normalize_sec_ejec (some " 00123-X") :=
  ⟨normalize_sec_ejec_spec.2.2 " 00123-X" (by decide),
    (normalize_sec_ejec_spec.1 (some " 00123-X")).2⟩

/- ---------------------------------------------------------------------
   C8: scraping/scraper.py — _retry_on_failure, with the constants of
   scraping/config.py.
--------------------------------------------------------------------- -/

namespace Retry

/-- `config.MAX_RETRIES`. -/
def MAX_RETRIES : Nat := 3

/-- `config.RETRY_DELAY_BASE` (seconds; backoff 2, 4, 8). -/
def RETRY_DELAY_BASE : Nat := 2

/-- Outcome of one invocation of the wrapped function: it returns a
value, raises one of the three retryable Selenium exceptions
(`TimeoutException`, `WebDriverException`,
`StaleElementReferenceException`), or raises anything else, which the
`except` clause does not catch and which therefore propagates at once. -/
inductive CallResult (E A : Type) where
  | success (a : A)
  | retryable (e : E)
  | fatal (e : E)
deriving DecidableEq, Repr

/-- Observable behaviour of one run of `_retry_on_failure`: the value
returned or exception raised, the number of calls made to the wrapped
function, and the sequence of back-off sleeps (in seconds) performed.
`Except.error none` models the `raise last_exception` with
`last_exception = None` that would occur if `max_retries` were 0;
`Except.error (some e)` models raising the exception `e`. -/
structure Trace (E A : Type) where
  result : Except (Option E) A
  calls : Nat
  sleeps : List Nat
deriving Repr

/-- The `for attempt in range(max_retries)` loop of `_retry_on_failure`.
`f k` is the outcome of the (k+1)-th invocation of the wrapped
function.  A retryable failure records a sleep of
`RETRY_DELAY_BASE * 2 ** attempt` seconds and continues; a fatal
exception propagates immediately; when the loop ends the last retryable
exception is re-raised. -/
def retryGo (f : Nat → CallResult E A) :
    Nat → Nat → Option E → List Nat → Trace E A
  | attempt, 0, lastExc, sleeps => ⟨.error lastExc, attempt, sleeps⟩
  | attempt, remaining + 1, _, sleeps =>
    match f attempt with
    | .success a => ⟨.ok a, attempt + 1, sleeps⟩
    | .retryable e =>
        retryGo f (attempt + 1) remaining (some e)
          (sleeps ++ [RETRY_DELAY_BASE * 2 ^ attempt])
    | .fatal e => ⟨.error (some e), attempt + 1, sleeps⟩

/-- `_retry_on_failure` with the default `max_retries = MAX_RETRIES`. -/
def retry_on_failure (f : Nat → CallResult E A) : Trace E A :=
  retryGo f 0 MAX_RETRIES none []

end Retry

/-- C8: `_retry_on_failure` invokes the wrapped function at most
`MAX_RETRIES = 3` times; if the (k+1)-th call is the first to succeed
(each earlier call raising a retryable exception), its value is returned
after exactly `k+1` calls with back-off sleeps
`RETRY_DELAY_BASE * 2 ^ j` for `j < k`; and if all three calls raise
retryable exceptions, the exception of the last attempt is re-raised
after the sleeps 2, 4, 8. -/
theorem retry_on_failure_spec {E A : Type} (f : Nat → Retry.CallResult E A) :
    (Retry.retry_on_failure f).calls ≤ Retry.MAX_RETRIES
    ∧ (∀ k (a : A), k < Retry.MAX_RETRIES → f k = .success a →
        (∀ j, j < k → ∃ e, f j = .retryable e) →
        (Retry.retry_on_failure f).result = .ok a
          ∧ (Retry.retry_on_failure f).calls = k + 1
          ∧ (Retry.retry_on_failure f).sleeps =
              (List.range k).map (fun j => Retry.RETRY_DELAY_BASE * 2 ^ j))
    ∧ ((∀ j, j < Retry.MAX_RETRIES → ∃ e, f j = .retryable e) →
        ∃ e2, f 2 = .retryable e2
          ∧ (Retry.retry_on_failure f).result = .error (some e2)
          ∧ (Retry.retry_on_failure f).calls = Retry.MAX_RETRIES
          ∧ (Retry.retry_on_failure f).sleeps = [2, 4, 8]) := by
  refine ⟨?_, ?_, ?_⟩
  · rcases h0 : f 0 with a | e | e
    · simp [Retry.retry_on_failure, Retry.retryGo, Retry.MAX_RETRIES, h0]
    · rcases h1 : f 1 with a | e1 | e1
      · simp [Retry.retry_on_failure, Retry.retryGo, Retry.MAX_RETRIES, h0, h1]
      · rcases h2 : f 2 with a | e2 | e2 <;>
          simp [Retry.retry_on_failure, Retry.retryGo, Retry.MAX_RETRIES, h0, h1, h2]
      · simp [Retry.retry_on_failure, Retry.retryGo, Retry.MAX_RETRIES, h0, h1]
    · simp [Retry.retry_on_failure, Retry.retryGo, Retry.MAX_RETRIES, h0]
  · intro k a hk hsucc hprev
    rw [Retry.MAX_RETRIES] at hk
    interval_cases k
    · refine ⟨?_, ?_, ?_⟩ <;>
        simp [Retry.retry_on_failure, Retry.retryGo, hsucc]
    · obtain ⟨e0, he0⟩ := hprev 0 (by norm_num)
      refine ⟨?_, ?_, ?_⟩ <;>
        simp [Retry.retry_on_failure, Retry.retryGo, Retry.RETRY_DELAY_BASE, he0, hsucc,
          List.range_succ]
    · obtain ⟨e0, he0⟩ := hprev 0 (by norm_num)
      obtain ⟨e1, he1⟩ := hprev 1 (by norm_num)
      refine ⟨?_, ?_, ?_⟩ <;>
        simp [Retry.retry_on_failure, Retry.retryGo, Retry.RETRY_DELAY_BASE, he0, he1, hsucc,
          List.range_succ]
  · intro hall
    obtain ⟨e0, he0⟩ := hall 0 (by rw [Retry.MAX_RETRIES]; norm_num)
    obtain ⟨e1, he1⟩ := hall 1 (by rw [Retry.MAX_RETRIES]; norm_num)
    obtain ⟨e2, he2⟩ := hall 2 (by rw [Retry.MAX_RETRIES]; norm_num)
    refine ⟨e2, he2, ?_, ?_, ?_⟩ <;>
      simp [Retry.retry_on_failure, Retry.retryGo, Retry.MAX_RETRIES, Retry.RETRY_DELAY_BASE,
        he0, he1, he2]

/-- Witness for C8: a wrapped function whose every call raises a
retryable exception (numbered by attempt) is re-raised from the last
attempt after the back-off sleeps 2, 4, 8. -/
theorem retry_on_failure_spec_witness :
    ∃ e2, (fun k => Retry.CallResult.retryable (E := Nat) (A := Nat) k) 2 = .retryable e2
      ∧ (Retry.retry_on_failure (fun k => Retry.CallResult.retryable (E := Nat) (A := Nat) k)).result
          = .error (some e2)
      ∧ (Retry.retry_on_failure (fun k => Retry.CallResult.retryable (E := Nat) (A := Nat) k)).calls
          = Retry.MAX_RETRIES
      ∧ (Retry.retry_on_failure (fun k => Retry.CallResult.retryable (E := Nat) (A := Nat) k)).sleeps
          = [2, 4, 8] :=
  (retry_on_failure_spec (fun k => Retry.CallResult.retryable (E := Nat) (A := Nat) k)).2.2
    (fun j _ => ⟨j, rfl⟩)

/- ---------------------------------------------------------------------
   Shared panel machinery: keyed deduplication and pandas-style left
   merge (used by build_panel_t1.py and the analysis build_panel
   functions).
--------------------------------------------------------------------- -/

/-- Helper for `dedupByKey`: drop rows whose key was already seen. -/
def dedupByKeyAux [DecidableEq κ] (key : α → κ) (seen : List κ) : List α → List α
  | [] => []
  | a :: as =>
    if key a ∈ seen then dedupByKeyAux key seen as
    else a :: dedupByKeyAux key (key a :: seen) as

/-- `pandas.DataFrame.drop_duplicates(subset=…)`: keep the first row for
each key value, preserving order. -/
def dedupByKey [DecidableEq κ] (key : α → κ) (l : List α) : List α := dedupByKeyAux key [] l

theorem mem_dedupByKeyAux [DecidableEq κ] {key : α → κ} {a : α} :
    ∀ {seen : List κ} {l : List α}, a ∈ dedupByKeyAux key seen l → a ∈ l ∧ key a ∉ seen := by
  intro seen l
  induction l generalizing seen with
  | nil => simp [dedupByKeyAux]
  | cons b bs ih =>
    rw [dedupByKeyAux]
    by_cases hb : key b ∈ seen
    · rw [if_pos hb]
      intro h
      obtain ⟨h1, h2⟩ := ih h
      exact ⟨List.mem_cons_of_mem _ h1, h2⟩
    · rw [if_neg hb]
      intro h
      rcases List.mem_cons.mp h with rfl | h
      · exact ⟨List.mem_cons_self _ _, hb⟩
      · obtain ⟨h1, h2⟩ := ih h
        refine ⟨List.mem_cons_of_mem _ h1, fun hc => h2 ?_⟩
        exact List.mem_cons_of_mem _ hc

theorem nodup_map_key_dedupByKeyAux [DecidableEq κ] (key : α → κ) :
    ∀ (seen : List κ) (l : List α),
      ((dedupByKeyAux key seen l).map key).Nodup
        ∧ ∀ a ∈ dedupByKeyAux key seen l, key a ∉ seen := by
  intro seen l
  induction l generalizing seen with
  | nil => simp [dedupByKeyAux]
  | cons b bs ih =>
    rw [dedupByKeyAux]
    by_cases hb : key b ∈ seen
    · rw [if_pos hb]; exact ih seen
    · rw [if_neg hb]
      obtain ⟨ihnd, ihseen⟩ := ih (key b :: seen)
      refine ⟨List.nodup_cons.mpr ⟨?_, ihnd⟩, ?_⟩
      · intro hmem
        obtain ⟨c, hc, hkc⟩ := List.mem_map.mp hmem
        exact (ihseen c hc) (hkc ▸ List.mem_cons_self _ _)
      · intro a ha
        rcases List.mem_cons.mp ha with rfl | ha
        · exact hb
        · intro hc
          exact (ihseen a ha) (List.mem_cons_of_mem _ hc)

/-- After `drop_duplicates(subset=key)` the key column has no
duplicates. -/
theorem nodup_map_key_dedupByKey [DecidableEq κ] (key : α → κ) (l : List α) :
    ((dedupByKey key l).map key).Nodup :=
  (nodup_map_key_dedupByKeyAux key [] l).1

theorem mem_dedupByKey [DecidableEq κ] {key : α → κ} {a : α} {l : List α}
    (h : a ∈ dedupByKey key l) : a ∈ l :=
  (mem_dedupByKeyAux h).1

/-- `pandas.merge(..., how="left")`: each left row is combined with every
matching right row, or kept with missing right-hand fields when no right
row matches. -/
def leftMerge (left : List α) (right : List β) (mtch : α → β → Bool)
    (combine : α → β → γ) (missing : α → γ) : List γ :=
  left.flatMap (fun a =>
    let ms := right.filter (mtch a)
    if ms.isEmpty then [missing a] else ms.map (combine a))

/-- When every left row matches at most one right row and both `combine`
and `missing` preserve the left row's key, a left merge yields exactly
one output row per input row, with the same key column. -/
theorem leftMerge_map_key (left : List α) (right : List β) (mtch : α → β → Bool)
    (combine : α → β → γ) (missing : α → γ) (keyA : α → κ) (keyC : γ → κ)
    (hcomb : ∀ a b, keyC (combine a b) = keyA a)
    (hmiss : ∀ a, keyC (missing a) = keyA a)
    (hsingle : ∀ a ∈ left, (right.filter (mtch a)).length ≤ 1) :
    (leftMerge left right mtch combine missing).map keyC = left.map keyA := by
  induction left with
  | nil => rfl
  | cons a as ih =>
    have hsa := hsingle a (List.mem_cons_self _ _)
    have ihs : ∀ x ∈ as, (right.filter (mtch x)).length ≤ 1 :=
      fun x hx => hsingle x (List.mem_cons_of_mem _ hx)
    rw [leftMerge] at ih ⊢
    rw [List.flatMap_cons, List.map_append, ih ihs, List.map_cons]
    rcases hflt : right.filter (mtch a) with - | ⟨b, bs⟩
    · simp [hflt, hmiss]
    · rcases bs with - | ⟨b2, bs2⟩
      · simp [hflt, hcomb]
      · rw [hflt] at hsa
        simp at hsa

/- ---------------------------------------------------------------------
   Python string coercions shared by the padron loaders.
--------------------------------------------------------------------- -/

namespace Keys

/-- Decimal value of a digit string. -/
def digitsVal (l : List Char) : Nat := l.foldl (fun n c => 10 * n + (c.toNat - 48)) 0

/-- `pd.to_numeric(·, errors="coerce").astype("Int64")` on a year
column: a string of decimal digits (possibly surrounded by whitespace)
parses to its value, anything else coerces to missing.  (Python also
parses signed and float forms; the roster years are plain digit strings,
so the restriction is immaterial here.) -/
def pyToNumericYear (s : String) : Option Int :=
  let t := pyStrip s.toList
  if t ≠ [] ∧ t.all Char.isDigit then some (digitsVal t) else none

/-- `.str.upper().str.strip()` (ASCII case mapping; the roster values
are ASCII). -/
def pyUpperStrip (s : String) : String :=
  String.mk (pyStrip (s.toList.map Char.toUpper))

/-- `pat in s` / `.str.contains(pat, na=False)` for a literal pattern:
substring containment. -/
def strContains (s pat : String) : Bool :=
  s.toList.tails.any (fun t => pat.toList.isPrefixOf t)

end Keys

/- ---------------------------------------------------------------------
   C3/C4/C5/C6: scraping/build_panel_t1.py — read_padron, build_groups,
   build_panel.
--------------------------------------------------------------------- -/

namespace Panel

/-- A raw row of `padron_largo.csv` as read with `dtype=str`: the four
roster columns consumed by the loaders plus the remaining columns,
which no loader touches. -/
structure RawPadronRow where
  sec_ejec : String
  anio : String
  siga_implementado : String
  categoria : String
  resto : String
deriving DecidableEq, Repr

/-- The four roster fields `(sec_ejec, anio, siga_implementado,
categoria)` of a raw row. -/
def roster (r : RawPadronRow) : String × String × String × String :=
  (r.sec_ejec, r.anio, r.siga_implementado, r.categoria)

/-- A roster row after `read_padron`'s column coercions. -/
structure PadronRow where
  sec_ejec : String
  anio : Option Int
  siga_implementado : String
  categoria : String
deriving DecidableEq, Repr

/-- Body of `read_padron` on one parsed CSV row: digit-filter the key,
coerce the year, upper-case and strip the SIGA flag and the category.
(The identical inline coercions appear in
`run_oaxaca_blinder.build_panel` lines 51–58.) -/
def read_padron_row (q : String × String × String × String) : PadronRow :=
  { sec_ejec := Keys.strip_non_digits_pandas q.1
    anio := Keys.pyToNumericYear q.2.1
    siga_implementado := Keys.pyUpperStrip q.2.2.1
    categoria := Keys.pyUpperStrip q.2.2.2 }

/-- `read_padron` (and the padron block of `run_oaxaca_blinder.build_panel`). -/
def read_padron (rows : List RawPadronRow) : List PadronRow :=
  rows.map (fun r => read_padron_row (roster r))

/-- The municipality filter of `build_groups` lines 18–19 (and
`run_oaxaca_blinder.build_panel` lines 61–62): category contains
MUNICIPALIDADES, year within 2022–2025. -/
def muniOf (padron : List PadronRow) : List PadronRow :=
  (padron.filter (fun r => Keys.strContains r.categoria ("MUNICIPALIDADES"))).filter
    (fun r => r.anio == some 2022 || r.anio == some 2023
      || r.anio == some 2024 || r.anio == some 2025)

/-- Pre-period rows (2022–2024). -/
def preOf (muni : List PadronRow) : List PadronRow :=
  muni.filter (fun r => r.anio == some 2022 || r.anio == some 2023 || r.anio == some 2024)

/-- `post`: the deduplicated `(sec_ejec, siga_implementado)` pairs of the
2025 rows (lines 22–23). -/
def postPairs (muni : List PadronRow) : List (String × String) :=
  dedupFirst ((muni.filter (fun r => r.anio == some 2025)).map
    (fun r => (r.sec_ejec, r.siga_implementado)))

/-- The `pre_siga` aggregation of lines 25–30: "SI" if any pre-year row
is SI, else "NO" if any is NO, else "ABSENT". -/
def preSigaAgg (l : List String) : String :=
  if l.contains ("SI") then "SI" else if l.contains ("NO") then "NO" else "ABSENT"

/-- `pre_status`: one `(sec_ejec, pre_siga)` row per entity appearing in
the pre-period.  (pandas sorts group keys; we keep first-occurrence
order, which no claim depends on.) -/
def preStatus (pre : List PadronRow) : List (String × String) :=
  (dedupFirst (pre.map (fun r => r.sec_ejec))).map (fun se =>
    (se, preSigaAgg ((pre.filter (fun r => r.sec_ejec == se)).map
      (fun r => r.siga_implementado))))

/-- The `label` function of `build_groups` lines 36–45, verbatim. -/
def labelOf (post_siga pre_siga : String) : String :=
  if post_siga = "SI" ∧ pre_siga = "SI" then "ALWAYS_IN"
  else if post_siga = "SI" ∧ pre_siga = "NO" then "SWITCHER"
  else if post_siga = "SI" ∧ pre_siga = "ABSENT" then "ENTRY_ABSENT"
  else if post_siga = "ABSENT" ∧ pre_siga = "SI" then "EXIT"
  else "OTHER"

/-- One row of the `groups` frame. -/
structure GroupRow where
  sec_ejec : String
  pre_siga : String
  post_siga : String
  group_t1 : String
  t1_switcher : Int
deriving DecidableEq, Repr

/-- The outer merge of `pre_status` with `post` on `sec_ejec`
(line 32), with both sides' missing values filled with "ABSENT"
(lines 33–34): for each entity of either side, one row per matching
`post` pair (or a single row with post side "ABSENT"). -/
def groupsMerge (pres : List (String × String)) (post : List (String × String)) :
    List (String × String × String) :=
  (dedupFirst (pres.map Prod.fst ++ post.map Prod.fst)).flatMap (fun se =>
    let preVal := (((pres.filter (fun p => p.1 == se)).map Prod.snd).headD ("ABSENT"))
    let postVals := (post.filter (fun p => p.1 == se)).map Prod.snd
    if postVals.isEmpty then [(se, preVal, "ABSENT")]
    else postVals.map (fun s => (se, preVal, s)))

/-- `build_groups`: returns the filtered municipality rows and the
`groups` frame with `group_t1` and `t1_switcher` (lines 17–49). -/
def build_groups (padron : List PadronRow) : List PadronRow × List GroupRow :=
  let muni := muniOf padron
  let rows := groupsMerge (preStatus (preOf muni)) (postPairs muni)
  (muni, rows.map (fun t =>
    { sec_ejec := t.1
      pre_siga := t.2.1
      post_siga := t.2.2
      group_t1 := labelOf t.2.2 t.2.1
      t1_switcher := if labelOf t.2.2 t.2.1 = "SWITCHER" then 1 else 0 }))

/-- A row of `presupuesto_muni_panel.parquet` (budget panel): key
columns plus the budget amounts. -/
structure BudgetRow where
  sec_ejec : String
  anio : Option Int
  pia : ℚ
  pim : ℚ
  devengado : ℚ
deriving DecidableEq, Repr

/-- A row of the merged T1 panel produced by `build_panel`
(lines 52–61). -/
structure PanelT1Row where
  sec_ejec : String
  anio : Option Int
  pia : ℚ
  pim : ℚ
  devengado : ℚ
  siga_padron : Option String
  pre_siga : Option String
  post_siga : Option String
  group_t1 : Option String
  t1_switcher : Option Int
  post_2025 : Int
  t1_post : Int
deriving DecidableEq, Repr

/-- `padron_year` (line 53): the deduplicated per-year SIGA status. -/
def padronYearOf (muni : List PadronRow) : List (String × Option Int × String) :=
  dedupFirst (muni.map (fun r => (r.sec_ejec, r.anio, r.siga_implementado)))

/-- Assemble one output row of `build_panel` from a merged triple
(budget row, per-year SIGA, group row): lines 56–60. -/
def panelRowOf (t : BudgetRow × Option String × Option GroupRow) : PanelT1Row :=
  let post2025 : Int := if t.1.anio == some 2025 then 1 else 0
  { sec_ejec := t.1.sec_ejec
    anio := t.1.anio
    pia := t.1.pia
    pim := t.1.pim
    devengado := t.1.devengado
    siga_padron := t.2.1
    pre_siga := t.2.2.map (fun g => g.pre_siga)
    post_siga := t.2.2.map (fun g => g.post_siga)
    group_t1 := t.2.2.map (fun g => g.group_t1)
    t1_switcher := t.2.2.map (fun g => g.t1_switcher)
    post_2025 := post2025
    t1_post := if (t.2.2.map (fun g => g.t1_switcher) == (some 1 : Option Int)) && post2025 == 1
      then 1 else 0 }

/-- `build_panel` (build_panel_t1.py lines 52–61): left-merge the budget
panel with the deduplicated per-year padron on `(sec_ejec, anio)`, then
with `groups` on `sec_ejec`; add `post_2025` and `t1_post`.  Missing
matches leave the merged columns as `none` (NaN). -/
def build_panel (presupuesto : List BudgetRow) (muni : List PadronRow)
    (groups : List GroupRow) : List PanelT1Row :=
  let padron_year := padronYearOf muni
  let step1 := leftMerge presupuesto padron_year
    (fun b p => b.sec_ejec == p.1 && b.anio == p.2.1)
    (fun b p => (b, some p.2.2)) (fun b => (b, none))
  let step2 := leftMerge step1 groups
    (fun bp g => bp.1.sec_ejec == g.sec_ejec)
    (fun bp g => (bp.1, bp.2, some g)) (fun bp => (bp.1, bp.2, none))
  step2.map panelRowOf

end Panel

/- ---------------------------------------------------------------------
   analisis/oaxaca_blinder/run_oaxaca_blinder.py — build_panel with
   assign_group (lines 34–94).
--------------------------------------------------------------------- -/

namespace Oaxaca

/-- A row of `cmn_cumple_v4.parquet` as consumed by the analysis
scripts: the key columns and the compliance flag. -/
structure CmnKeyRow where
  sec_ejec : String
  anio : Option Int
  cumple_v4 : ℚ
deriving DecidableEq, Repr

/-- `anio <= 2024` on an `Int64` column: missing years compare False. -/
def anioLe2024 (a : Option Int) : Bool :=
  match a with
  | some y => y ≤ 2024
  | none => false

/-- `pre_ues` (lines 65–67): entities with SIGA = SI in some year
≤ 2024 among the filtered municipality rows. -/
def preUes (muni : List Panel.PadronRow) : List String :=
  (muni.filter (fun r => anioLe2024 r.anio && r.siga_implementado == "SI")).map
    (fun r => r.sec_ejec)

/-- `post_ues` (line 68): entities present in 2025. -/
def postUes (muni : List Panel.PadronRow) : List String :=
  (muni.filter (fun r => r.anio == some 2025)).map (fun r => r.sec_ejec)

/-- `assign_group` (lines 70–77), verbatim. -/
def assign_group (pre post : List String) (se : String) : String :=
  if se ∈ pre ∧ se ∈ post then "ALWAYS_IN"
  else if se ∉ pre ∧ se ∈ post then "ENTRY"
  else if se ∈ pre ∧ se ∉ post then "EXIT"
  else "OTHER"

/-- `group_map` (lines 79–80): a finite dict keyed by
`all_ues = pre_ues ∪ post_ues`, modelled as a lookup function. -/
def groupMap (padron : List Panel.PadronRow) (se : String) : Option String :=
  let muni := Panel.muniOf padron
  let pre := preUes muni
  let post := postUes muni
  if se ∈ pre ∨ se ∈ post then some (assign_group pre post se) else none

/-- A row of the Oaxaca analysis panel. -/
structure OaxacaRow where
  sec_ejec : String
  anio : Option Int
  pia : ℚ
  pim : ℚ
  devengado : ℚ
  cumple_v4 : ℚ
  group : Option String
  log_pia : ℚ
  log_pim : ℚ
deriving DecidableEq, Repr

/-- `run_oaxaca_blinder.build_panel` (lines 34–94): normalize the budget
and CMN keys, deduplicate the CMN side on `(sec_ejec, anio)`, left-merge
the compliance flag onto the budget panel filling missing flags with 0,
assign each row its entity's group, keep only ALWAYS_IN and ENTRY rows,
and add the log-budget covariates.  `np.log1p` is irrational-valued, so
the embedding takes it as an explicit function parameter; `clip(lower=0)`
is `max · 0`. -/
def build_panel (log1p : ℚ → ℚ) (budget : List Panel.BudgetRow)
    (cmn : List CmnKeyRow) (padron : List Panel.PadronRow) : List OaxacaRow :=
  let budgetN := budget.map (fun b =>
    { b with sec_ejec := Keys.strip_non_digits_pandas b.sec_ejec })
  let cmnN := cmn.map (fun c =>
    { c with sec_ejec := Keys.strip_non_digits_pandas c.sec_ejec })
  let cmnCols := dedupByKey (fun c => (c.sec_ejec, c.anio)) cmnN
  let merged := leftMerge budgetN cmnCols
    (fun b c => b.sec_ejec == c.sec_ejec && b.anio == c.anio)
    (fun b c => (b, some c.cumple_v4)) (fun b => (b, none))
  let rows := merged.map (fun p =>
    { sec_ejec := p.1.sec_ejec
      anio := p.1.anio
      pia := p.1.pia
      pim := p.1.pim
      devengado := p.1.devengado
      cumple_v4 := (p.2.getD 0)
      group := groupMap padron p.1.sec_ejec
      log_pia := log1p (max p.1.pia 0)
      log_pim := log1p (max p.1.pim 0) : OaxacaRow })
  rows.filter (fun r => r.group == some "ALWAYS_IN" || r.group == some "ENTRY")

end Oaxaca

/- ---------------------------------------------------------------------
   analisis/did_clasico_2x2/run_did_clasico.py — build_panel
   (lines 43–75).
--------------------------------------------------------------------- -/

namespace DidClasico

/-- A row of the DiD 2x2 analysis panel. -/
structure DidRow where
  sec_ejec : String
  anio : Option Int
  pia : ℚ
  pim : ℚ
  devengado : ℚ
  group_t1 : Option String
  cumple_v4 : ℚ
  switcher : Int
  post : Int
  switcher_x_post : Int
  log_pia : ℚ
  log_pim : ℚ
deriving DecidableEq, Repr

/-- Assemble one output row of the DiD panel from a merged pair
(T1 panel row, optional compliance flag): lines 61–73. -/
def didRowOf (log1p : ℚ → ℚ) (p : Panel.PanelT1Row × Option ℚ) : DidRow :=
  let sw : Int := if p.1.group_t1 == some "SWITCHER" then 1 else 0
  let post : Int := if p.1.anio == some 2025 then 1 else 0
  { sec_ejec := p.1.sec_ejec
    anio := p.1.anio
    pia := p.1.pia
    pim := p.1.pim
    devengado := p.1.devengado
    group_t1 := p.1.group_t1
    cumple_v4 := (p.2.getD 0)
    switcher := sw
    post := post
    switcher_x_post := sw * post
    log_pia := log1p (max p.1.pia 0)
    log_pim := log1p (max p.1.pim 0) }

/-- `run_did_clasico.build_panel` (lines 43–75): left-merge the
deduplicated CMN flag onto the T1 panel by `(sec_ejec, anio)`, fill
missing flags with 0, keep only ALWAYS_IN and SWITCHER rows, and add
the DiD variables and log-budget controls (`np.log1p` again passed as a
parameter). -/
def build_panel (log1p : ℚ → ℚ) (t1 : List Panel.PanelT1Row)
    (cmn : List Oaxaca.CmnKeyRow) : List DidRow :=
  let cmnN := cmn.map (fun c =>
    { c with sec_ejec := Keys.strip_non_digits_pandas c.sec_ejec })
  let cmnCols := dedupByKey (fun c => (c.sec_ejec, c.anio)) cmnN
  let merged := leftMerge t1 cmnCols
    (fun a c => a.sec_ejec == c.sec_ejec && a.anio == c.anio)
    (fun a c => (a, some c.cumple_v4)) (fun a => (a, none))
  let kept := merged.filter (fun p =>
    p.1.group_t1 == some "ALWAYS_IN" || p.1.group_t1 == some "SWITCHER")
  kept.map (didRowOf log1p)

end DidClasico

/- ---------------------------------------------------------------------
   Further merge/filter lemmas.
--------------------------------------------------------------------- -/

/-- Every output row of a left merge comes from a left row, either
unmatched (with the `missing` fill) or combined with a matching right
row. -/
theorem mem_leftMerge {left : List α} {right : List β} {mtch : α → β → Bool}
    {combine : α → β → γ} {missing : α → γ} {c : γ}
    (h : c ∈ leftMerge left right mtch combine missing) :
    ∃ a ∈ left, (right.filter (mtch a) = [] ∧ c = missing a)
      ∨ ∃ b, b ∈ right ∧ mtch a b = true ∧ c = combine a b := by
  unfold leftMerge at h
  obtain ⟨a, ha, hc⟩ := List.mem_flatMap.mp h
  refine ⟨a, ha, ?_⟩
  by_cases hflt : right.filter (mtch a) = []
  · rw [hflt] at hc
    simp only [List.isEmpty_nil, if_true, List.mem_singleton] at hc
    exact Or.inl ⟨hflt, hc⟩
  · have hne : (right.filter (mtch a)).isEmpty = false := by
      cases hfe : right.filter (mtch a) with
      | nil => exact absurd hfe hflt
      | cons x xs => rfl
    simp only [hne, Bool.false_eq_true, if_false, List.mem_map] at hc
    obtain ⟨b2, hb2, hcb⟩ := hc
    exact Or.inr ⟨b2, (List.mem_filter.mp hb2).1, (List.mem_filter.mp hb2).2, hcb.symm⟩

/-- A filter that pins down the key keeps at most one row of a list
whose key column has no duplicates. -/
theorem length_filter_le_one_of_key_nodup [DecidableEq κ] (key : α → κ) :
    ∀ (l : List α), ((l.map key).Nodup) → ∀ (p : α → Bool) (k : κ),
      (∀ a, p a = true → key a = k) → (l.filter p).length ≤ 1 := by
  intro l
  induction l with
  | nil => intro _ p k _; simp
  | cons a as ih =>
    intro hnd p k hp
    rw [List.map_cons, List.nodup_cons] at hnd
    by_cases hpa : p a = true
    · rw [List.filter_cons_of_pos hpa]
      have hrest : as.filter p = [] := by
        rw [List.filter_eq_nil_iff]
        intro x hx hpx
        have hxk : key x = key a := (hp x hpx).trans (hp a hpa).symm
        exact absurd (hxk ▸ List.mem_map_of_mem key hx) hnd.1
      rw [hrest]
      simp
    · rw [List.filter_cons_of_neg (by simp [hpa])]
      exact ih hnd.2 p k hp

/-- Keys of a flatMap whose blocks each contribute exactly their own
key once. -/
theorem map_key_flatMap_eq [DecidableEq κ] (keys : List κ) (f : κ → List α) (key : α → κ)
    (hone : ∀ k ∈ keys, (f k).map key = [k]) :
    ((keys.flatMap f).map key) = keys := by
  induction keys with
  | nil => rfl
  | cons k ks ih =>
    rw [List.flatMap_cons, List.map_append, hone k (List.mem_cons_self _ _),
      ih (fun x hx => hone x (List.mem_cons_of_mem _ hx))]
    rfl

/- ---------------------------------------------------------------------
   Claim C3
--------------------------------------------------------------------- -/

theorem labelOf_mem (post_siga pre_siga : String) :
    Panel.labelOf post_siga pre_siga ∈
      ["ALWAYS_IN", "SWITCHER", "ENTRY_ABSENT", "EXIT", "OTHER"] := by
  rw [Panel.labelOf]
  split_ifs <;> simp

/-- C3 counterexample: the claim's five-label list is wrong for
`build_groups`.  An entity present only in the 2025 roster with
SIGA = SI is labelled ENTRY_ABSENT, which is not among
ALWAYS_IN, SWITCHER, ENTRY, EXIT, OTHER. -/
theorem group_label_outside_claimed_five :
    ∃ g ∈ (Panel.build_groups [⟨"1", some 2025, "SI", "MUNICIPALIDADES"⟩]).2,
      g.group_t1 ∉ ["ALWAYS_IN", "SWITCHER", "ENTRY", "EXIT", "OTHER"] := by
  decide

/-- C3 (amended): every label produced by `build_groups` is one of the
five values ALWAYS_IN, SWITCHER, ENTRY_ABSENT, EXIT, OTHER (the code
uses ENTRY_ABSENT where the claim says ENTRY), and every label produced
by `assign_group` in run_oaxaca_blinder.py is one of ALWAYS_IN, ENTRY,
EXIT, OTHER (that path never emits SWITCHER). -/
theorem group_label_enumeration :
    (∀ padron : List Panel.PadronRow, ∀ g ∈ (Panel.build_groups padron).2,
      g.group_t1 ∈ ["ALWAYS_IN", "SWITCHER", "ENTRY_ABSENT", "EXIT", "OTHER"])
    ∧ (∀ pre post : List String, ∀ se : String,
      Oaxaca.assign_group pre post se ∈ ["ALWAYS_IN", "ENTRY", "EXIT", "OTHER"]) := by
  constructor
  · intro padron g hg
    obtain ⟨t, -, rfl⟩ := List.mem_map.mp hg
    exact labelOf_mem t.2.2 t.2.1
  · intro pre post se
    rw [Oaxaca.assign_group]
    split_ifs <;> simp

/-- Witness for the amended C3: the concrete ENTRY_ABSENT row produced
above is covered by the amended enumeration, as is a concrete
`assign_group` value. -/
theorem group_label_enumeration_witness :
    ("ENTRY_ABSENT" : String) ∈ ["ALWAYS_IN", "SWITCHER", "ENTRY_ABSENT", "EXIT", "OTHER"] :=
  group_label_enumeration.1 [⟨"1", some 2025, "SI", "MUNICIPALIDADES"⟩]
    ⟨"1", "ABSENT", "SI", "ENTRY_ABSENT", 0⟩ (by decide)

/- ---------------------------------------------------------------------
   Claim C4
--------------------------------------------------------------------- -/

namespace Panel

/-- If each 2025 roster entity carries a single SIGA value, the `post`
pair list has no duplicate entity. -/
theorem postPairs_fst_nodup (muni : List PadronRow)
    (huniq : ∀ r1 ∈ muni, ∀ r2 ∈ muni, r1.anio = some 2025 → r2.anio = some 2025 →
      r1.sec_ejec = r2.sec_ejec → r1.siga_implementado = r2.siga_implementado) :
    ((postPairs muni).map Prod.fst).Nodup := by
  apply List.Nodup.map_on ?_ (nodup_dedupFirst _)
  intro x hx y hy hxy
  obtain ⟨r1, hr1, rfl⟩ := List.mem_map.mp (mem_dedupFirst.mp hx)
  obtain ⟨r2, hr2, rfl⟩ := List.mem_map.mp (mem_dedupFirst.mp hy)
  have h1 := List.mem_filter.mp hr1
  have h2 := List.mem_filter.mp hr2
  have e1 : r1.anio = some 2025 := by simpa using h1.2
  have e2 : r2.anio = some 2025 := by simpa using h2.2
  have hsec : r1.sec_ejec = r2.sec_ejec := hxy
  have hsga := huniq r1 h1.1 r2 h2.1 e1 e2 hsec
  simp [hsec, hsga]

/-- Under the same hypothesis, each entity key contributes exactly one
block row to the outer merge of `pre_status` and `post`. -/
theorem groupsMerge_map_fst (muni : List PadronRow)
    (huniq : ∀ r1 ∈ muni, ∀ r2 ∈ muni, r1.anio = some 2025 → r2.anio = some 2025 →
      r1.sec_ejec = r2.sec_ejec → r1.siga_implementado = r2.siga_implementado) :
    (groupsMerge (preStatus (preOf muni)) (postPairs muni)).map
        (fun t => t.1)
      = dedupFirst ((preStatus (preOf muni)).map Prod.fst
          ++ (postPairs muni).map Prod.fst) := by
  apply map_key_flatMap_eq
  intro se hse
  have hlen := length_filter_le_one_of_key_nodup Prod.fst (postPairs muni)
    (postPairs_fst_nodup muni huniq) (fun p => p.1 == se) se
    (fun p hp => by simpa using hp)
  rcases hflt : (postPairs muni).filter (fun p => p.1 == se) with - | ⟨q, qs⟩
  · simp [hflt]
  · rcases qs with - | ⟨q2, qs2⟩
    · simp [hflt]
    · rw [hflt] at hlen
      simp at hlen

/-- C4, first part: with a single SIGA value per 2025 entity,
`build_groups` assigns exactly one row (hence one label) per entity. -/
theorem build_groups_sec_nodup (padron : List PadronRow)
    (huniq : ∀ r1 ∈ muniOf padron, ∀ r2 ∈ muniOf padron,
      r1.anio = some 2025 → r2.anio = some 2025 →
      r1.sec_ejec = r2.sec_ejec → r1.siga_implementado = r2.siga_implementado) :
    (((build_groups padron).2).map (fun g => g.sec_ejec)).Nodup := by
  have hmm : ((build_groups padron).2).map (fun g => g.sec_ejec)
      = (groupsMerge (preStatus (preOf (muniOf padron)))
          (postPairs (muniOf padron))).map (fun t => t.1) := by
    simp only [build_groups, List.map_map]
    rfl
  rw [hmm, groupsMerge_map_fst (muniOf padron) huniq]
  exact nodup_dedupFirst _

/-- Every entity of the filtered municipality roster receives a group
row. -/
theorem build_groups_covers (padron : List PadronRow)
    (huniq : ∀ r1 ∈ muniOf padron, ∀ r2 ∈ muniOf padron,
      r1.anio = some 2025 → r2.anio = some 2025 →
      r1.sec_ejec = r2.sec_ejec → r1.siga_implementado = r2.siga_implementado) :
    ∀ r ∈ muniOf padron, ∃ g ∈ (build_groups padron).2, g.sec_ejec = r.sec_ejec := by
  intro r hr
  have hkey : r.sec_ejec ∈ dedupFirst ((preStatus (preOf (muniOf padron))).map Prod.fst
      ++ (postPairs (muniOf padron)).map Prod.fst) := by
    rw [mem_dedupFirst, List.mem_append]
    have hyr := (List.mem_filter.mp hr).2
    simp only [Bool.or_eq_true, beq_iff_eq] at hyr
    rcases hyr with ((h22 | h23) | h24) | h25
    · refine Or.inl ?_
      have hpre : r ∈ preOf (muniOf padron) :=
        List.mem_filter.mpr ⟨hr, by simp [h22]⟩
      have : r.sec_ejec ∈ dedupFirst ((preOf (muniOf padron)).map (fun x => x.sec_ejec)) :=
        mem_dedupFirst.mpr (List.mem_map_of_mem _ hpre)
      rw [preStatus, List.map_map]
      simpa using this
    · refine Or.inl ?_
      have hpre : r ∈ preOf (muniOf padron) :=
        List.mem_filter.mpr ⟨hr, by simp [h23]⟩
      have : r.sec_ejec ∈ dedupFirst ((preOf (muniOf padron)).map (fun x => x.sec_ejec)) :=
        mem_dedupFirst.mpr (List.mem_map_of_mem _ hpre)
      rw [preStatus, List.map_map]
      simpa using this
    · refine Or.inl ?_
      have hpre : r ∈ preOf (muniOf padron) :=
        List.mem_filter.mpr ⟨hr, by simp [h24]⟩
      have : r.sec_ejec ∈ dedupFirst ((preOf (muniOf padron)).map (fun x => x.sec_ejec)) :=
        mem_dedupFirst.mpr (List.mem_map_of_mem _ hpre)
      rw [preStatus, List.map_map]
      simpa using this
    · refine Or.inr ?_
      have hpost : (r.sec_ejec, r.siga_implementado) ∈ postPairs (muniOf padron) := by
        rw [postPairs, mem_dedupFirst]
        exact List.mem_map_of_mem _ (List.mem_filter.mpr ⟨hr, by simp [h25]⟩)
      exact List.mem_map.mpr ⟨_, hpost, rfl⟩
  have hkey2 : r.sec_ejec ∈ (groupsMerge (preStatus (preOf (muniOf padron)))
      (postPairs (muniOf padron))).map (fun t => t.1) := by
    rw [groupsMerge_map_fst (muniOf padron) huniq]
    exact hkey
  obtain ⟨t, ht, hts⟩ := List.mem_map.mp hkey2
  exact ⟨_, List.mem_map_of_mem _ ht, hts⟩

/-- Each panel row's `group_t1` is determined by its entity key: it is
the label of the unique group row with that key, or `none` when the
entity has no group row. -/
theorem build_panel_group_lookup (pres : List BudgetRow) (muni : List PadronRow)
    (groups : List GroupRow) :
    ∀ p ∈ build_panel pres muni groups,
      (∃ g, g ∈ groups ∧ g.sec_ejec = p.sec_ejec ∧ p.group_t1 = some g.group_t1)
      ∨ ((∀ g ∈ groups, g.sec_ejec ≠ p.sec_ejec) ∧ p.group_t1 = none) := by
  intro p hp
  obtain ⟨t, ht, rfl⟩ := List.mem_map.mp hp
  obtain ⟨bp, -, hcase⟩ := mem_leftMerge ht
  rcases hcase with ⟨hflt, rfl⟩ | ⟨g, hg, hmtch, rfl⟩
  · refine Or.inr ⟨?_, rfl⟩
    intro g hg hsec
    have : g ∈ groups.filter (fun g => bp.1.sec_ejec == g.sec_ejec) :=
      List.mem_filter.mpr ⟨hg, by
        have hr : bp.1.sec_ejec = (panelRowOf (bp.1, bp.2, none)).sec_ejec := rfl
        simp [hsec, hr]⟩
    rw [hflt] at this
    exact absurd this (List.not_mem_nil g)
  · exact Or.inl ⟨g, hg, (show bp.1.sec_ejec = g.sec_ejec by simpa using hmtch).symm, rfl⟩

end Panel

/-- C4 counterexample: group labels are not unique per entity.  With a
roster giving entity "1" both SIGA = SI and SIGA = NO in 2025, the
`groups` frame carries two rows for the entity and the merged panel of
`build_panel` holds rows of the same entity with different `group_t1`
(ALWAYS_IN and OTHER). -/
theorem group_label_not_unique_per_entity :
    ∃ p1 ∈ Panel.build_panel [⟨"1", some 2025, 0, 0, 0⟩]
        (Panel.build_groups [⟨"1", some 2023, "SI", "MUNICIPALIDADES"⟩,
          ⟨"1", some 2025, "SI", "MUNICIPALIDADES"⟩,
          ⟨"1", some 2025, "NO", "MUNICIPALIDADES"⟩]).1
        (Panel.build_groups [⟨"1", some 2023, "SI", "MUNICIPALIDADES"⟩,
          ⟨"1", some 2025, "SI", "MUNICIPALIDADES"⟩,
          ⟨"1", some 2025, "NO", "MUNICIPALIDADES"⟩]).2,
    ∃ p2 ∈ Panel.build_panel [⟨"1", some 2025, 0, 0, 0⟩]
        (Panel.build_groups [⟨"1", some 2023, "SI", "MUNICIPALIDADES"⟩,
          ⟨"1", some 2025, "SI", "MUNICIPALIDADES"⟩,
          ⟨"1", some 2025, "NO", "MUNICIPALIDADES"⟩]).1
        (Panel.build_groups [⟨"1", some 2023, "SI", "MUNICIPALIDADES"⟩,
          ⟨"1", some 2025, "SI", "MUNICIPALIDADES"⟩,
          ⟨"1", some 2025, "NO", "MUNICIPALIDADES"⟩]).2,
      p1.sec_ejec = p2.sec_ejec ∧ p1.group_t1 ≠ p2.group_t1 := by
  decide

/-- C4 (amended): provided each 2025 roster entity carries a single
SIGA value, each entity of the roster is assigned exactly one group row
(the label cases are exhaustive and non-overlapping), and in the panel
produced by `build_panel` any two rows of the same entity carry the
same `group_t1` in every year. -/
theorem group_labels_stable_unique (padron : List Panel.PadronRow)
    (huniq : ∀ r1 ∈ Panel.muniOf padron, ∀ r2 ∈ Panel.muniOf padron,
      r1.anio = some 2025 → r2.anio = some 2025 →
      r1.sec_ejec = r2.sec_ejec → r1.siga_implementado = r2.siga_implementado) :
    (((Panel.build_groups padron).2).map (fun g => g.sec_ejec)).Nodup
    ∧ (∀ r ∈ Panel.muniOf padron,
        ∃ g ∈ (Panel.build_groups padron).2, g.sec_ejec = r.sec_ejec)
    ∧ (∀ pres : List Panel.BudgetRow,
        ∀ p1 ∈ Panel.build_panel pres (Panel.build_groups padron).1
          (Panel.build_groups padron).2,
        ∀ p2 ∈ Panel.build_panel pres (Panel.build_groups padron).1
          (Panel.build_groups padron).2,
          p1.sec_ejec = p2.sec_ejec → p1.group_t1 = p2.group_t1) := by
  have hnd := Panel.build_groups_sec_nodup padron huniq
  refine ⟨hnd, Panel.build_groups_covers padron huniq, ?_⟩
  intro pres p1 hp1 p2 hp2 hsec
  have h1 := Panel.build_panel_group_lookup pres _ _ p1 hp1
  have h2 := Panel.build_panel_group_lookup pres _ _ p2 hp2
  rcases h1 with ⟨g1, hg1, hs1, he1⟩ | ⟨hn1, he1⟩
  · rcases h2 with ⟨g2, hg2, hs2, he2⟩ | ⟨hn2, he2⟩
    · have hgg : g1 = g2 :=
        List.inj_on_of_nodup_map hnd hg1 hg2 (by rw [hs1, hs2, hsec])
      rw [he1, he2, hgg]
    · exact absurd (hs1.trans hsec) (hn2 g1 hg1)
  · rcases h2 with ⟨g2, hg2, hs2, he2⟩ | ⟨hn2, he2⟩
    · exact absurd (hs2.trans hsec.symm) (hn1 g2 hg2)
    · rw [he1, he2]

/-- Witness for the amended C4 at a concrete roster (a 2023 NO row and
a single 2025 SI row for entity "1", a SWITCHER): the `groups` frame
has one row per entity. -/
theorem group_labels_stable_unique_witness :
    (((Panel.build_groups [⟨"1", some 2023, "NO", "MUNICIPALIDADES"⟩,
        ⟨"1", some 2025, "SI", "MUNICIPALIDADES"⟩]).2).map
      (fun g => g.sec_ejec)).Nodup :=
  (group_labels_stable_unique [⟨"1", some 2023, "NO", "MUNICIPALIDADES"⟩,
    ⟨"1", some 2025, "SI", "MUNICIPALIDADES"⟩] (by decide)).1

/- ---------------------------------------------------------------------
   Claim C5
--------------------------------------------------------------------- -/

/-- `read_padron` factors through the roster projection: it reads
nothing but the four roster columns. -/
theorem read_padron_factor (rs : List Panel.RawPadronRow) :
    Panel.read_padron rs = (rs.map Panel.roster).map Panel.read_padron_row := by
  simp [Panel.read_padron, List.map_map, Function.comp]

/-- Every row of the Oaxaca analysis panel carries exactly the group of
its entity under `group_map`; the budget and compliance inputs cannot
perturb it. -/
theorem oaxaca_panel_group_eq (log1p : ℚ → ℚ) (budget : List Panel.BudgetRow)
    (cmn : List Oaxaca.CmnKeyRow) (padron : List Panel.PadronRow) :
    ∀ p ∈ Oaxaca.build_panel log1p budget cmn padron,
      p.group = Oaxaca.groupMap padron p.sec_ejec := by
  intro p hp
  have hrows := (List.mem_filter.mp hp).1
  obtain ⟨q, -, rfl⟩ := List.mem_map.mp hrows
  rfl

/-- C5: group assignment is a pure function of the roster history.  Two
executions whose padron rows agree on `(sec_ejec, anio,
siga_implementado, categoria)` — while every other padron column and
all outcome data (budget amounts, `cumple_v4`) differ arbitrarily —
produce the same `groups` frame from `build_groups`, the same
`group_map` from `assign_group`, and group-identical panel rows per
entity in `run_oaxaca_blinder.build_panel`. -/
theorem group_assignment_independent_of_outcomes
    (r1 r2 : List Panel.RawPadronRow) (h : r1.map Panel.roster = r2.map Panel.roster)
    (log1p : ℚ → ℚ) (b1 b2 : List Panel.BudgetRow) (c1 c2 : List Oaxaca.CmnKeyRow) :
    Panel.build_groups (Panel.read_padron r1) = Panel.build_groups (Panel.read_padron r2)
    ∧ (∀ se : String, Oaxaca.groupMap (Panel.read_padron r1) se
        = Oaxaca.groupMap (Panel.read_padron r2) se)
    ∧ (∀ p1 ∈ Oaxaca.build_panel log1p b1 c1 (Panel.read_padron r1),
       ∀ p2 ∈ Oaxaca.build_panel log1p b2 c2 (Panel.read_padron r2),
        p1.sec_ejec = p2.sec_ejec → p1.group = p2.group) := by
  have hp : Panel.read_padron r1 = Panel.read_padron r2 := by
    rw [read_padron_factor, read_padron_factor, h]
  refine ⟨by rw [hp], fun se => by rw [hp], ?_⟩
  intro p1 hp1 p2 hp2 hsec
  rw [oaxaca_panel_group_eq log1p b1 c1 _ p1 hp1,
    oaxaca_panel_group_eq log1p b2 c2 _ p2 hp2, hsec, hp]

/-- Witness for C5: two padron files identical on the roster columns but
different elsewhere yield the same `groups` frame (here with different
outcome inputs supplied as well). -/
theorem group_assignment_independent_of_outcomes_witness :
    Panel.build_groups (Panel.read_padron [⟨"1", "2025", "SI", "MUNICIPALIDADES", "A"⟩])
      = Panel.build_groups (Panel.read_padron [⟨"1", "2025", "SI", "MUNICIPALIDADES", "B"⟩]) :=
  (group_assignment_independent_of_outcomes
    [⟨"1", "2025", "SI", "MUNICIPALIDADES", "A"⟩]
    [⟨"1", "2025", "SI", "MUNICIPALIDADES", "B"⟩] (by decide)
    id [] [⟨"9", some 2025, 1, 2, 3⟩] [] [⟨"9", some 2025, 1⟩]).1

/- ---------------------------------------------------------------------
   Claim C6
--------------------------------------------------------------------- -/

namespace Panel

/-- Under a single SIGA value per `(entity, year)`, the per-year padron
table has unique `(sec_ejec, anio)` keys. -/
theorem padronYearOf_key_nodup (muni : List PadronRow)
    (hmuni : ∀ r1 ∈ muni, ∀ r2 ∈ muni, r1.sec_ejec = r2.sec_ejec → r1.anio = r2.anio →
      r1.siga_implementado = r2.siga_implementado) :
    ((padronYearOf muni).map (fun t => (t.1, t.2.1))).Nodup := by
  apply List.Nodup.map_on ?_ (nodup_dedupFirst _)
  intro x hx y hy hxy
  obtain ⟨rx, hrx, rfl⟩ := List.mem_map.mp (mem_dedupFirst.mp hx)
  obtain ⟨ry, hry, rfl⟩ := List.mem_map.mp (mem_dedupFirst.mp hy)
  simp only [Prod.mk.injEq] at hxy
  obtain ⟨h1, h2⟩ := hxy
  have h3 := hmuni rx hrx ry hry h1 h2
  simp [h1, h2, h3]

/-- With key-unique budget input, at most one SIGA value per
`(entity, year)` and key-unique groups, the merged T1 panel keeps the
budget panel's keys unchanged — one row per input row. -/
theorem build_panel_map_key (pres : List BudgetRow) (muni : List PadronRow)
    (groups : List GroupRow)
    (hmuni : ∀ r1 ∈ muni, ∀ r2 ∈ muni, r1.sec_ejec = r2.sec_ejec → r1.anio = r2.anio →
      r1.siga_implementado = r2.siga_implementado)
    (hgrp : (groups.map (fun g => g.sec_ejec)).Nodup) :
    (build_panel pres muni groups).map (fun r => (r.sec_ejec, r.anio))
      = pres.map (fun b => (b.sec_ejec, b.anio)) := by
  have hpy := padronYearOf_key_nodup muni hmuni
  have hs1 : (leftMerge pres (padronYearOf muni)
      (fun b p => b.sec_ejec == p.1 && b.anio == p.2.1)
      (fun b p => (b, some p.2.2)) (fun b => (b, (none : Option String)))).map
        (fun x => (x.1.sec_ejec, x.1.anio)) = pres.map (fun b => (b.sec_ejec, b.anio)) := by
    apply leftMerge_map_key
    · intro a b; rfl
    · intro a; rfl
    · intro b _
      apply length_filter_le_one_of_key_nodup (fun t => (t.1, t.2.1)) _ hpy _
        (b.sec_ejec, b.anio)
      intro p hp
      simp only [Bool.and_eq_true, beq_iff_eq] at hp
      simp [hp.1, hp.2]
  have hs2 : (leftMerge (leftMerge pres (padronYearOf muni)
      (fun b p => b.sec_ejec == p.1 && b.anio == p.2.1)
      (fun b p => (b, some p.2.2)) (fun b => (b, (none : Option String)))) groups
      (fun bp g => bp.1.sec_ejec == g.sec_ejec)
      (fun bp g => (bp.1, bp.2, some g)) (fun bp => (bp.1, bp.2, none))).map
        (fun t => (t.1.sec_ejec, t.1.anio))
      = (leftMerge pres (padronYearOf muni)
          (fun b p => b.sec_ejec == p.1 && b.anio == p.2.1)
          (fun b p => (b, some p.2.2)) (fun b => (b, (none : Option String)))).map
            (fun x => (x.1.sec_ejec, x.1.anio)) := by
    apply leftMerge_map_key
    · intro a b; rfl
    · intro a; rfl
    · intro bp _
      apply length_filter_le_one_of_key_nodup (fun g : GroupRow => g.sec_ejec) _ hgrp _
        bp.1.sec_ejec
      intro g hg
      exact (beq_iff_eq.mp hg).symm
  calc (build_panel pres muni groups).map (fun r => (r.sec_ejec, r.anio))
      = (leftMerge (leftMerge pres (padronYearOf muni)
          (fun b p => b.sec_ejec == p.1 && b.anio == p.2.1)
          (fun b p => (b, some p.2.2)) (fun b => (b, (none : Option String)))) groups
          (fun bp g => bp.1.sec_ejec == g.sec_ejec)
          (fun bp g => (bp.1, bp.2, some g)) (fun bp => (bp.1, bp.2, none))).map
            (fun t => (t.1.sec_ejec, t.1.anio)) := by
        rw [show build_panel pres muni groups
          = (leftMerge (leftMerge pres (padronYearOf muni)
              (fun b p => b.sec_ejec == p.1 && b.anio == p.2.1)
              (fun b p => (b, some p.2.2)) (fun b => (b, (none : Option String)))) groups
              (fun bp g => bp.1.sec_ejec == g.sec_ejec)
              (fun bp g => (bp.1, bp.2, some g))
              (fun bp => (bp.1, bp.2, none))).map panelRowOf from rfl, List.map_map]
        rfl
    _ = pres.map (fun b => (b.sec_ejec, b.anio)) := by rw [hs2, hs1]

end Panel

namespace DidClasico

/-- The DiD panel's `(sec_ejec, anio)` keys form a sublist of the T1
input's keys: the CMN side is deduplicated before the merge, so the
merge adds no rows, and the group filter only removes rows. -/
theorem build_panel_key_sublist (log1p : ℚ → ℚ) (t1 : List Panel.PanelT1Row)
    (cmn : List Oaxaca.CmnKeyRow) :
    ((build_panel log1p t1 cmn).map (fun r => (r.sec_ejec, r.anio))).Sublist
      (t1.map (fun r => (r.sec_ejec, r.anio))) := by
  have hnd := nodup_map_key_dedupByKey (fun c : Oaxaca.CmnKeyRow => (c.sec_ejec, c.anio))
    (cmn.map (fun c => { c with sec_ejec := Keys.strip_non_digits_pandas c.sec_ejec }))
  have hmain : (leftMerge t1 (dedupByKey (fun c : Oaxaca.CmnKeyRow => (c.sec_ejec, c.anio))
      (cmn.map (fun c => { c with sec_ejec := Keys.strip_non_digits_pandas c.sec_ejec })))
      (fun a c => a.sec_ejec == c.sec_ejec && a.anio == c.anio)
      (fun a c => (a, some c.cumple_v4)) (fun a => (a, none))).map
        (fun x => (x.1.sec_ejec, x.1.anio)) = t1.map (fun r => (r.sec_ejec, r.anio)) := by
    apply leftMerge_map_key
    · intro a b; rfl
    · intro a; rfl
    · intro a _
      apply length_filter_le_one_of_key_nodup
        (fun c : Oaxaca.CmnKeyRow => (c.sec_ejec, c.anio)) _ hnd _ (a.sec_ejec, a.anio)
      intro c hc
      simp only [Bool.and_eq_true, beq_iff_eq] at hc
      simp [hc.1, hc.2]
  have hstep : (build_panel log1p t1 cmn).map (fun r => (r.sec_ejec, r.anio))
      = ((leftMerge t1 (dedupByKey (fun c : Oaxaca.CmnKeyRow => (c.sec_ejec, c.anio))
          (cmn.map (fun c => { c with sec_ejec := Keys.strip_non_digits_pandas c.sec_ejec })))
          (fun a c => a.sec_ejec == c.sec_ejec && a.anio == c.anio)
          (fun a c => (a, some c.cumple_v4)) (fun a => (a, none))).filter (fun p =>
            p.1.group_t1 == some "ALWAYS_IN" || p.1.group_t1 == some "SWITCHER")).map
            (fun x => (x.1.sec_ejec, x.1.anio)) := by
    rw [show build_panel log1p t1 cmn
      = ((leftMerge t1 (dedupByKey (fun c : Oaxaca.CmnKeyRow => (c.sec_ejec, c.anio))
          (cmn.map (fun c => { c with sec_ejec := Keys.strip_non_digits_pandas c.sec_ejec })))
          (fun a c => a.sec_ejec == c.sec_ejec && a.anio == c.anio)
          (fun a c => (a, some c.cumple_v4)) (fun a => (a, none))).filter (fun p =>
            p.1.group_t1 == some "ALWAYS_IN" || p.1.group_t1 == some "SWITCHER")).map
            (didRowOf log1p) from rfl, List.map_map]
    rfl
  rw [hstep, ← hmain]
  exact List.Sublist.map _ (List.filter_sublist _)

end DidClasico

/-- C6 counterexample: key uniqueness is not guaranteed in the merged
panel of `build_panel_t1.py`.  No `drop_duplicates` is applied to the
budget side, so a duplicated `(sec_ejec, anio)` budget row survives
into the merged panel. -/
theorem panel_keys_not_unique :
    ¬ ((Panel.build_panel [⟨"1", some 2025, 0, 0, 0⟩, ⟨"1", some 2025, 0, 0, 0⟩] [] []).map
        (fun r => (r.sec_ejec, r.anio))).Nodup := by
  decide

/-- C6 (amended): the deduplications the scripts actually perform
guarantee key uniqueness conditionally: the CMN table is key-unique
after its `drop_duplicates` on `(sec_ejec, anio)`; the merged T1 panel
has unique `(sec_ejec, anio)` keys provided the budget input is
key-unique, the roster has a single SIGA value per `(entity, year)` and
the groups frame one row per entity; and the DiD panel is key-unique
whenever its T1 input is — the scripts do not deduplicate the merged
panels themselves. -/
theorem panel_keys_unique :
    (∀ cmn : List Oaxaca.CmnKeyRow,
      ((dedupByKey (fun c => (c.sec_ejec, c.anio)) cmn).map
        (fun c => (c.sec_ejec, c.anio))).Nodup)
    ∧ (∀ (pres : List Panel.BudgetRow) (muni : List Panel.PadronRow)
        (groups : List Panel.GroupRow),
        (pres.map (fun b => (b.sec_ejec, b.anio))).Nodup →
        (∀ r1 ∈ muni, ∀ r2 ∈ muni, r1.sec_ejec = r2.sec_ejec → r1.anio = r2.anio →
          r1.siga_implementado = r2.siga_implementado) →
        ((groups.map (fun g => g.sec_ejec)).Nodup) →
        ((Panel.build_panel pres muni groups).map (fun r => (r.sec_ejec, r.anio))).Nodup)
    ∧ (∀ (log1p : ℚ → ℚ) (t1 : List Panel.PanelT1Row) (cmn : List Oaxaca.CmnKeyRow),
        (t1.map (fun r => (r.sec_ejec, r.anio))).Nodup →
        ((DidClasico.build_panel log1p t1 cmn).map
          (fun r => (r.sec_ejec, r.anio))).Nodup) := by
  refine ⟨fun cmn => nodup_map_key_dedupByKey _ cmn, ?_, ?_⟩
  · intro pres muni groups hpres hmuni hgrp
    rw [Panel.build_panel_map_key pres muni groups hmuni hgrp]
    exact hpres
  · intro log1p t1 cmn ht1
    exact ht1.sublist (DidClasico.build_panel_key_sublist log1p t1 cmn)

/-- Witness for the amended C6: a key-unique two-row budget panel
merged with an empty roster yields a key-unique T1 panel. -/
theorem panel_keys_unique_witness :
    ((Panel.build_panel [⟨"1", some 2024, 0, 0, 0⟩, ⟨"1", some 2025, 0, 0, 0⟩] [] []).map
      (fun r => (r.sec_ejec, r.anio))).Nodup :=
  panel_keys_unique.2.1 [⟨"1", some 2024, 0, 0, 0⟩, ⟨"1", some 2025, 0, 0, 0⟩] [] []
    (by decide) (by decide) (by decide)

/- ---------------------------------------------------------------------
   C2: run_oaxaca_blinder.py — aggregate_decomposition (lines 97–156)
   and individual_decomposition (lines 159–238).
--------------------------------------------------------------------- -/

namespace Oaxaca

/-- `pandas.Series.mean` over exact rationals. -/
def qmean (l : List ℚ) : ℚ := l.sum / l.length

/-- The scalar outputs of `aggregate_decomposition`. -/
structure AggResult where
  r_A_24 : ℚ
  r_A_25 : ℚ
  r_E_25 : ℚ
  n_A_24 : Nat
  n_A_25 : Nat
  n_E_25 : Nat
  n_25 : Nat
  w_A : ℚ
  w_E : ℚ
  ind_24 : ℚ
  ind_25 : ℚ
  delta_total_pp : ℚ
  delta_behavior_pp : ℚ
  delta_composition_pp : ℚ
  share_behavior : Option ℚ
  share_composition : Option ℚ
deriving DecidableEq, Repr

/-- `aggregate_decomposition` (Kitagawa).  `r_E_25` is `np.nan` when no
ENTRY rows exist in 2025; `ℚ` has no NaN, so that branch is modelled as
the same division-by-zero value `0`, and the claim's hypothesis (the
group means are defined) excludes it.  The shares are `np.nan` when
`delta_total = 0`, modelled as `none`. -/
def aggregate_decomposition (panel : List OaxacaRow) : AggResult :=
  let a24 := panel.filter (fun r => r.anio == some 2024 && r.group == some "ALWAYS_IN")
  let r_A_24 := qmean (a24.map (fun r => r.cumple_v4))
  let a25 := panel.filter (fun r => r.anio == some 2025 && r.group == some "ALWAYS_IN")
  let e25 := panel.filter (fun r => r.anio == some 2025 && r.group == some "ENTRY")
  let r_A_25 := qmean (a25.map (fun r => r.cumple_v4))
  let r_E_25 := if 0 < e25.length then qmean (e25.map (fun r => r.cumple_v4)) else 0
  let n_A_25 := a25.length
  let n_E_25 := e25.length
  let n_25 := n_A_25 + n_E_25
  let w_A := (n_A_25 : ℚ) / (n_25 : ℚ)
  let w_E := (n_E_25 : ℚ) / (n_25 : ℚ)
  let ind_24 := r_A_24
  let ind_25 := w_A * r_A_25 + w_E * r_E_25
  let delta_total := ind_25 - ind_24
  let delta_behavior := w_A * (r_A_25 - r_A_24)
  let delta_composition := w_E * (r_E_25 - r_A_24)
  { r_A_24 := r_A_24
    r_A_25 := r_A_25
    r_E_25 := r_E_25
    n_A_24 := a24.length
    n_A_25 := n_A_25
    n_E_25 := n_E_25
    n_25 := n_25
    w_A := w_A
    w_E := w_E
    ind_24 := ind_24
    ind_25 := ind_25
    delta_total_pp := delta_total * 100
    delta_behavior_pp := delta_behavior * 100
    delta_composition_pp := delta_composition * 100
    share_behavior := if delta_total ≠ 0 then some (delta_behavior / delta_total) else none
    share_composition := if delta_total ≠ 0 then some (delta_composition / delta_total) else none }

/-- A length-3 coefficient or regressor-mean vector
`[const, log_pia, log_pim]`. -/
structure Vec3 where
  c0 : ℚ
  c1 : ℚ
  c2 : ℚ
deriving DecidableEq, Repr

/-- Dot product on `Vec3`. -/
def dot (u v : Vec3) : ℚ := u.c0 * v.c0 + u.c1 * v.c1 + u.c2 * v.c2

/-- Componentwise difference. -/
def vsub (u v : Vec3) : Vec3 := ⟨u.c0 - v.c0, u.c1 - v.c1, u.c2 - v.c2⟩

/-- One observation `(cumple_v4, log_pia, log_pim)` mapped to its design
row after `sm.add_constant`: `[1, log_pia, log_pim]`. -/
def designRow (d : ℚ × ℚ × ℚ) : Vec3 := ⟨1, d.2.1, d.2.2⟩

/-- Column means of the design matrix (`X24.mean()` / `X25.mean()`). -/
def meanVec (d : List (ℚ × ℚ × ℚ)) : Vec3 :=
  ⟨(d.map (fun r => (designRow r).c0)).sum / d.length,
    (d.map (fun r => (designRow r).c1)).sum / d.length,
    (d.map (fun r => (designRow r).c2)).sum / d.length⟩

/-- Mean of the outcome column. -/
def ybar (d : List (ℚ × ℚ × ℚ)) : ℚ := qmean (d.map (fun r => r.1))

/-- One component of `Xᵀ(y - Xβ)`. -/
def residSum (d : List (ℚ × ℚ × ℚ)) (β : Vec3) (comp : Vec3 → ℚ) : ℚ :=
  (d.map (fun r => comp (designRow r) * (r.1 - dot (designRow r) β))).sum

/-- The normal equations `XᵀXβ = Xᵀy` of an OLS fit: statsmodels's
pinv-based estimate satisfies them (they characterise least-squares
solutions). -/
def NormalEq (d : List (ℚ × ℚ × ℚ)) (β : Vec3) : Prop :=
  residSum d β Vec3.c0 = 0 ∧ residSum d β Vec3.c1 = 0 ∧ residSum d β Vec3.c2 = 0

/-- The scalar outputs of `individual_decomposition`. -/
structure IndivResult where
  y_bar_24 : ℚ
  y_bar_25 : ℚ
  delta_y : ℚ
  n_24 : Nat
  n_25 : Nat
  endowments_total : ℚ
  coefficients_total : ℚ
  interaction_total : ℚ
  total_decomposed : ℚ
  check_residual : ℚ
deriving DecidableEq, Repr

/-- `individual_decomposition` (lines 159–238) on the year samples
`d24`, `d25` (rows `(cumple_v4, log_pia, log_pim)` after `dropna`) and
the fitted LPM coefficient vectors `beta_24`, `beta_25` (the numeric
OLS fit is a statsmodels call; its output enters as the vectors, which
`NormalEq` below characterises). -/
def individual_decomposition (d24 d25 : List (ℚ × ℚ × ℚ)) (β24 β25 : Vec3) : IndivResult :=
  let X_bar_24 := meanVec d24
  let X_bar_25 := meanVec d25
  let y_bar_24 := ybar d24
  let y_bar_25 := ybar d25
  let delta_X := vsub X_bar_25 X_bar_24
  let delta_beta := vsub β25 β24
  let endowments := dot delta_X β24
  let coefficients := dot X_bar_24 delta_beta
  let interaction := dot delta_X delta_beta
  let total := endowments + coefficients + interaction
  { y_bar_24 := y_bar_24
    y_bar_25 := y_bar_25
    delta_y := y_bar_25 - y_bar_24
    n_24 := d24.length
    n_25 := d25.length
    endowments_total := endowments
    coefficients_total := coefficients
    interaction_total := interaction
    total_decomposed := total
    check_residual := (y_bar_25 - y_bar_24) - total }

end Oaxaca

/- Sum manipulation lemmas for the decompositions. -/

theorem sum_map_sub_q (l : List α) (f g : α → ℚ) :
    (l.map (fun x => f x - g x)).sum = (l.map f).sum - (l.map g).sum := by
  induction l with
  | nil => simp
  | cons a as ih => simp [ih]; ring

theorem sum_map_dot (d : List (ℚ × ℚ × ℚ)) (β : Oaxaca.Vec3) :
    (d.map (fun r => Oaxaca.dot (Oaxaca.designRow r) β)).sum
      = (d.map (fun r => (Oaxaca.designRow r).c0)).sum * β.c0
        + (d.map (fun r => (Oaxaca.designRow r).c1)).sum * β.c1
        + (d.map (fun r => (Oaxaca.designRow r).c2)).sum * β.c2 := by
  induction d with
  | nil => simp
  | cons a as ih =>
    rw [List.map_cons, List.sum_cons, ih, List.map_cons, List.sum_cons,
      List.map_cons, List.sum_cons, List.map_cons, List.sum_cons, Oaxaca.dot]
    ring

/-- With a constant column in the design matrix, the first normal
equation forces the fitted plane through the mean point:
`ȳ = X̄ · β`. -/
theorem ybar_eq_dot_meanVec (d : List (ℚ × ℚ × ℚ)) (β : Oaxaca.Vec3)
    (hne : d ≠ []) (h : Oaxaca.residSum d β Oaxaca.Vec3.c0 = 0) :
    Oaxaca.ybar d = Oaxaca.dot (Oaxaca.meanVec d) β := by
  have hn : (d.length : ℚ) ≠ 0 := by
    have hp : 0 < d.length := List.length_pos.mpr hne
    exact_mod_cast Nat.pos_iff_ne_zero.mp hp
  have h1 : (d.map (fun r => r.1 - Oaxaca.dot (Oaxaca.designRow r) β)).sum = 0 := by
    rw [Oaxaca.residSum] at h
    have hcongr : d.map (fun r => (Oaxaca.designRow r).c0
          * (r.1 - Oaxaca.dot (Oaxaca.designRow r) β))
        = d.map (fun r => r.1 - Oaxaca.dot (Oaxaca.designRow r) β) := by
      apply List.map_congr_left
      intro r _
      show (1 : ℚ) * _ = _
      ring
    rw [hcongr] at h
    exact h
  have h2 : (d.map (fun r => r.1)).sum
      = (d.map (fun r => Oaxaca.dot (Oaxaca.designRow r) β)).sum := by
    have h3 := sum_map_sub_q d (fun r => r.1) (fun r => Oaxaca.dot (Oaxaca.designRow r) β)
    rw [h1] at h3
    linarith
  rw [Oaxaca.ybar, Oaxaca.qmean, Oaxaca.meanVec, Oaxaca.dot]
  rw [h2, sum_map_dot]
  field_simp

/-- C2: the decomposition components sum exactly to the observed total
change.  In `aggregate_decomposition`, whenever the 2025 sample is
non-empty and the three group means are defined (ALWAYS_IN present in
2024 and 2025, ENTRY present in 2025),
`delta_behavior + delta_composition = ind_25 - ind_24 = delta_total`
(stated in the percentage points the code reports).  In
`individual_decomposition`, the three-fold components always sum to
`X̄₂₅·β₂₅ − X̄₂₄·β₂₄`, and when each year's OLS fit includes a constant
(so the fitted coefficients satisfy the normal equations on the
constant-augmented design), that total equals `ȳ₂₅ − ȳ₂₄`, i.e.
`check_residual = 0`. -/
theorem decomposition_components_sum
    (panel : List Oaxaca.OaxacaRow)
    (h24 : panel.filter (fun r => r.anio == some 2024 && r.group == some "ALWAYS_IN") ≠ [])
    (h25 : panel.filter (fun r => r.anio == some 2025 && r.group == some "ALWAYS_IN") ≠ [])
    (hE : panel.filter (fun r => r.anio == some 2025 && r.group == some "ENTRY") ≠ [])
    (d24 d25 : List (ℚ × ℚ × ℚ)) (β24 β25 : Oaxaca.Vec3)
    (hd24 : d24 ≠ []) (hd25 : d25 ≠ [])
    (hn24 : Oaxaca.NormalEq d24 β24) (hn25 : Oaxaca.NormalEq d25 β25) :
    ((Oaxaca.aggregate_decomposition panel).delta_behavior_pp
        + (Oaxaca.aggregate_decomposition panel).delta_composition_pp
      = (Oaxaca.aggregate_decomposition panel).delta_total_pp)
    ∧ ((Oaxaca.aggregate_decomposition panel).delta_total_pp
      = ((Oaxaca.aggregate_decomposition panel).ind_25
          - (Oaxaca.aggregate_decomposition panel).ind_24) * 100)
    ∧ ((Oaxaca.individual_decomposition d24 d25 β24 β25).endowments_total
        + (Oaxaca.individual_decomposition d24 d25 β24 β25).coefficients_total
        + (Oaxaca.individual_decomposition d24 d25 β24 β25).interaction_total
      = Oaxaca.dot (Oaxaca.meanVec d25) β25 - Oaxaca.dot (Oaxaca.meanVec d24) β24)
    ∧ ((Oaxaca.individual_decomposition d24 d25 β24 β25).check_residual = 0) := by
  have hA : 0 < (panel.filter
      (fun r => r.anio == some 2025 && r.group == some "ALWAYS_IN")).length :=
    List.length_pos.mpr h25
  have hEp : 0 < (panel.filter
      (fun r => r.anio == some 2025 && r.group == some "ENTRY")).length :=
    List.length_pos.mpr hE
  have hden : ((panel.filter
        (fun r => r.anio == some 2025 && r.group == some "ALWAYS_IN")).length : ℚ)
      + ((panel.filter
        (fun r => r.anio == some 2025 && r.group == some "ENTRY")).length : ℚ) ≠ 0 := by
    have : (0 : ℚ) < ((panel.filter
        (fun r => r.anio == some 2025 && r.group == some "ALWAYS_IN")).length : ℚ) := by
      exact_mod_cast hA
    have h0 : (0 : ℚ) ≤ ((panel.filter
        (fun r => r.anio == some 2025 && r.group == some "ENTRY")).length : ℚ) := by
      positivity
    linarith
  refine ⟨?_, rfl, ?_, ?_⟩
  · simp only [Oaxaca.aggregate_decomposition, if_pos hEp]
    push_cast
    field_simp
    ring
  · simp only [Oaxaca.individual_decomposition, Oaxaca.dot, Oaxaca.vsub]
    ring
  · simp only [Oaxaca.individual_decomposition]
    rw [ybar_eq_dot_meanVec d24 β24 hd24 hn24.1, ybar_eq_dot_meanVec d25 β25 hd25 hn25.1]
    simp only [Oaxaca.dot, Oaxaca.vsub]
    ring

/-- Witness for C2 at a concrete three-row panel and a concrete OLS
solution of the normal equations: the aggregate components add to the
total and the individual decomposition has zero residual. -/
theorem decomposition_components_sum_witness :
    ((Oaxaca.individual_decomposition
        [((0 : ℚ), (0 : ℚ), (0 : ℚ)), ((1 : ℚ), (0 : ℚ), (0 : ℚ))]
        [((1 : ℚ), (0 : ℚ), (0 : ℚ))] ⟨1/2, 0, 0⟩ ⟨1, 0, 0⟩).check_residual = 0)
    ∧ ((Oaxaca.aggregate_decomposition
        [⟨"1", some 2024, 0, 0, 0, 1, some "ALWAYS_IN", 0, 0⟩,
          ⟨"1", some 2025, 0, 0, 0, 1, some "ALWAYS_IN", 0, 0⟩,
          ⟨"2", some 2025, 0, 0, 0, 0, some "ENTRY", 0, 0⟩]).delta_behavior_pp
        + (Oaxaca.aggregate_decomposition
        [⟨"1", some 2024, 0, 0, 0, 1, some "ALWAYS_IN", 0, 0⟩,
          ⟨"1", some 2025, 0, 0, 0, 1, some "ALWAYS_IN", 0, 0⟩,
          ⟨"2", some 2025, 0, 0, 0, 0, some "ENTRY", 0, 0⟩]).delta_composition_pp
      = (Oaxaca.aggregate_decomposition
        [⟨"1", some 2024, 0, 0, 0, 1, some "ALWAYS_IN", 0, 0⟩,
          ⟨"1", some 2025, 0, 0, 0, 1, some "ALWAYS_IN", 0, 0⟩,
          ⟨"2", some 2025, 0, 0, 0, 0, some "ENTRY", 0, 0⟩]).delta_total_pp) := by
  have T := decomposition_components_sum
    [⟨"1", some 2024, 0, 0, 0, 1, some "ALWAYS_IN", 0, 0⟩,
      ⟨"1", some 2025, 0, 0, 0, 1, some "ALWAYS_IN", 0, 0⟩,
      ⟨"2", some 2025, 0, 0, 0, 0, some "ENTRY", 0, 0⟩]
    (by decide) (by decide) (by decide)
    [((0 : ℚ), (0 : ℚ), (0 : ℚ)), ((1 : ℚ), (0 : ℚ), (0 : ℚ))]
    [((1 : ℚ), (0 : ℚ), (0 : ℚ))] ⟨1/2, 0, 0⟩ ⟨1, 0, 0⟩
    (by simp) (by simp)
    (by refine ⟨?_, ?_, ?_⟩ <;>
      norm_num [Oaxaca.residSum, Oaxaca.dot, Oaxaca.designRow])
    (by refine ⟨?_, ?_, ?_⟩ <;>
      norm_num [Oaxaca.residSum, Oaxaca.dot, Oaxaca.designRow])
  exact ⟨T.2.2.2, T.1⟩

/- ---------------------------------------------------------------------
   C7: analisis/diagnostics_extras/run_diagnostics_extras.py —
   oaxaca_aggregate_single (lines 133–169) and run_bootstrap_oaxaca
   (lines 172–230).
--------------------------------------------------------------------- -/

namespace Diagnostics

/-- A row of the diagnostics panel: entity key, year, T1 group label
(`none` models NaN) and the compliance flag. -/
structure DiagRow where
  sec_ejec : String
  anio : Option Int
  group_t1 : Option String
  cumple_v4 : ℚ
deriving DecidableEq, Repr

/-- `oaxaca_aggregate_single`: Kitagawa decomposition of one sample,
returning `(delta_total, delta_behavior, delta_composition)`.  Means of
empty groups take the code's `else 0` branch; a NaN `group_t1` compares
unequal to "ALWAYS_IN" exactly as in pandas.  (The `entry_25` frame of
line 143 is computed but never used and is omitted.) -/
def oaxaca_aggregate_single (df_24 df_25 : List DiagRow) : ℚ × ℚ × ℚ :=
  let ai_24 := df_24.filter (fun r => r.group_t1 == some "ALWAYS_IN")
  let ai_25 := df_25.filter (fun r => r.group_t1 == some "ALWAYS_IN")
  let r_ai_24 := if 0 < ai_24.length then Oaxaca.qmean (ai_24.map (fun r => r.cumple_v4)) else 0
  let r_ai_25 := if 0 < ai_25.length then Oaxaca.qmean (ai_25.map (fun r => r.cumple_v4)) else 0
  let non_ai_25 := df_25.filter (fun r => !(r.group_t1 == some "ALWAYS_IN"))
  let r_entry_25 := if 0 < non_ai_25.length
    then Oaxaca.qmean (non_ai_25.map (fun r => r.cumple_v4)) else 0
  let n_ai_25 := ai_25.length
  let n_entry_25 := non_ai_25.length
  let n_total_25 := n_ai_25 + n_entry_25
  if n_total_25 = 0 then (0, 0, 0)
  else
    let w_ai := (n_ai_25 : ℚ) / (n_total_25 : ℚ)
    let w_entry := (n_entry_25 : ℚ) / (n_total_25 : ℚ)
    let delta_behavior := w_ai * (r_ai_25 - r_ai_24)
    let delta_composition := w_entry * (r_entry_25 - r_ai_24)
    (delta_behavior + delta_composition, delta_behavior, delta_composition)

/-- `np.percentile(arr, q)` with the default linear interpolation on
the sorted sample. -/
def npPercentile (q : ℚ) (xs : List ℚ) : ℚ :=
  let s := xs.insertionSort (· ≤ ·)
  let n := s.length
  if n = 0 then 0
  else
    let pos := q / 100 * ((n : ℚ) - 1)
    let lo := (Int.floor pos).toNat
    let frac := pos - (lo : ℚ)
    let a := s.getD lo 0
    let b := s.getD (lo + 1) a
    a + frac * (b - a)

/-- Python's `round` to the nearest integer, ties to even. -/
def bankersRound (x : ℚ) : ℤ :=
  let f := Int.floor x
  let frac := x - f
  if frac < 1/2 then f
  else if 1/2 < frac then f + 1
  else if Even f then f else f + 1

/-- `round(x, 2)`. -/
def pyRound2 (x : ℚ) : ℚ := ((bankersRound (x * 100) : ℤ) : ℚ) / 100

/-- The CI-related outputs of `run_bootstrap_oaxaca` (the bootstrap
standard errors use `np.std`, a square root with no exact rational
value, and no claim concerns them). -/
structure BootResult where
  delta_total_pp : ℚ
  delta_total_ci95_low : ℚ
  delta_total_ci95_high : ℚ
  delta_behavior_pp : ℚ
  delta_behavior_ci95_low : ℚ
  delta_behavior_ci95_high : ℚ
  delta_composition_pp : ℚ
  delta_composition_ci95_low : ℚ
  delta_composition_ci95_high : ℚ
  n_boot : Nat
deriving DecidableEq, Repr

/-- `run_bootstrap_oaxaca`.  `np.random.seed` / `np.random.choice` are
exogenous randomness: the embedding takes the resampled entity lists of
each bootstrap replication as an explicit argument `draws` (one pair of
entity lists per replication, drawn with replacement from the distinct
2024 resp. 2025 entities).  The replicate subsamples use `isin`,
exactly as the code does. -/
def run_bootstrap_oaxaca (panel : List DiagRow)
    (draws : List (List String × List String)) : BootResult :=
  let df_24 := panel.filter (fun r => r.anio == some 2024)
  let df_25 := panel.filter (fun r => r.anio == some 2025)
  let pt := oaxaca_aggregate_single df_24 df_25
  let boots := draws.map (fun d =>
    oaxaca_aggregate_single
      (df_24.filter (fun r => d.1.contains r.sec_ejec))
      (df_25.filter (fun r => d.2.contains r.sec_ejec)))
  let boot_total := boots.map (fun t => t.1)
  let boot_behavior := boots.map (fun t => t.2.1)
  let boot_composition := boots.map (fun t => t.2.2)
  { delta_total_pp := pyRound2 (pt.1 * 100)
    delta_total_ci95_low := pyRound2 (npPercentile (5/2) boot_total * 100)
    delta_total_ci95_high := pyRound2 (npPercentile (195/2) boot_total * 100)
    delta_behavior_pp := pyRound2 (pt.2.1 * 100)
    delta_behavior_ci95_low := pyRound2 (npPercentile (5/2) boot_behavior * 100)
    delta_behavior_ci95_high := pyRound2 (npPercentile (195/2) boot_behavior * 100)
    delta_composition_pp := pyRound2 (pt.2.2 * 100)
    delta_composition_ci95_low := pyRound2 (npPercentile (5/2) boot_composition * 100)
    delta_composition_ci95_high := pyRound2 (npPercentile (195/2) boot_composition * 100)
    n_boot := draws.length }

end Diagnostics

/-- `np.percentile` of a sample whose values are all equal is that
value, for any quantile in [0, 100]. -/
theorem npPercentile_all_eq (q : ℚ) (hq0 : 0 ≤ q) (hq1 : q ≤ 100) (xs : List ℚ) (v : ℚ)
    (hne : xs ≠ []) (hall : ∀ x ∈ xs, x = v) : Diagnostics.npPercentile q xs = v := by
  have hs : ∀ x ∈ xs.insertionSort (· ≤ ·), x = v := fun x hx =>
    hall x ((List.mem_insertionSort _).mp hx)
  have hn : 0 < (xs.insertionSort (· ≤ ·)).length := by
    rw [List.length_insertionSort]
    exact List.length_pos.mpr hne
  simp only [Diagnostics.npPercentile]
  rw [if_neg (Nat.pos_iff_ne_zero.mp hn)]
  set s := xs.insertionSort (· ≤ ·) with hsdef
  set pos : ℚ := q / 100 * ((s.length : ℚ) - 1) with hposdef
  have hq100 : q / 100 ≤ 1 := (div_le_one (by norm_num)).mpr hq1
  have hlen1 : (1 : ℚ) ≤ (s.length : ℚ) := by exact_mod_cast hn
  have hub : pos ≤ (s.length : ℚ) - 1 :=
    mul_le_of_le_one_left (by linarith) hq100
  have hfloor : Int.floor pos ≤ (s.length : ℤ) - 1 := by
    have h1 : Int.floor pos ≤ Int.floor ((s.length : ℚ) - 1) := Int.floor_mono hub
    have h2 : ((s.length : ℚ) - 1) = (((s.length : ℤ) - 1 : ℤ) : ℚ) := by push_cast; ring
    rw [h2, Int.floor_intCast] at h1
    exact h1
  have hlo : (Int.floor pos).toNat < s.length := by omega
  have ha : s.getD ((Int.floor pos).toNat) 0 = v := by
    rw [List.getD_eq_getElem?_getD, List.getElem?_eq_getElem hlo]
    exact hs _ (List.getElem_mem hlo)
  rw [ha]
  have hb : s.getD ((Int.floor pos).toNat + 1) v = v := by
    by_cases hlt : (Int.floor pos).toNat + 1 < s.length
    · rw [List.getD_eq_getElem?_getD, List.getElem?_eq_getElem hlt]
      exact hs _ (List.getElem_mem hlt)
    · rw [List.getD_eq_getElem?_getD, List.getElem?_eq_none (by omega)]
      rfl
  rw [hb]
  ring

/-- C7 counterexample: the bootstrap percentile interval need not
contain the point estimate.  On a panel with one ALWAYS_IN entity "A"
(compliant both years) and one ENTRY entity "B" (non-compliant in
2025), a single bootstrap replication that draws "A" twice (a valid
with-replacement draw: each drawn entity belongs to its year's entity
list and each draw has as many elements as there are entities) yields a
replicate of 0 for delta_total, so the reported interval is [0, 0]
while the point estimate is -50 pp. -/
theorem bootstrap_ci_may_exclude_point_estimate :
    (∀ e ∈ (["A"] : List String), e ∈ dedupFirst
        ((([⟨"A", some 2024, some "ALWAYS_IN", 1⟩, ⟨"A", some 2025, some "ALWAYS_IN", 1⟩,
            ⟨"B", some 2025, some "ENTRY", 0⟩] : List Diagnostics.DiagRow).filter
          (fun r => r.anio == some 2024)).map (fun r => r.sec_ejec)))
    ∧ (∀ e ∈ (["A", "A"] : List String), e ∈ dedupFirst
        ((([⟨"A", some 2024, some "ALWAYS_IN", 1⟩, ⟨"A", some 2025, some "ALWAYS_IN", 1⟩,
            ⟨"B", some 2025, some "ENTRY", 0⟩] : List Diagnostics.DiagRow).filter
          (fun r => r.anio == some 2025)).map (fun r => r.sec_ejec)))
    ∧ (["A"] : List String).length = (dedupFirst
        ((([⟨"A", some 2024, some "ALWAYS_IN", 1⟩, ⟨"A", some 2025, some "ALWAYS_IN", 1⟩,
            ⟨"B", some 2025, some "ENTRY", 0⟩] : List Diagnostics.DiagRow).filter
          (fun r => r.anio == some 2024)).map (fun r => r.sec_ejec))).length
    ∧ (["A", "A"] : List String).length = (dedupFirst
        ((([⟨"A", some 2024, some "ALWAYS_IN", 1⟩, ⟨"A", some 2025, some "ALWAYS_IN", 1⟩,
            ⟨"B", some 2025, some "ENTRY", 0⟩] : List Diagnostics.DiagRow).filter
          (fun r => r.anio == some 2025)).map (fun r => r.sec_ejec))).length
    ∧ ¬ ((Diagnostics.run_bootstrap_oaxaca
          [⟨"A", some 2024, some "ALWAYS_IN", 1⟩, ⟨"A", some 2025, some "ALWAYS_IN", 1⟩,
            ⟨"B", some 2025, some "ENTRY", 0⟩]
          [(["A"], ["A", "A"])]).delta_total_ci95_low
        ≤ (Diagnostics.run_bootstrap_oaxaca
          [⟨"A", some 2024, some "ALWAYS_IN", 1⟩, ⟨"A", some 2025, some "ALWAYS_IN", 1⟩,
            ⟨"B", some 2025, some "ENTRY", 0⟩]
          [(["A"], ["A", "A"])]).delta_total_pp) := by
  refine ⟨by decide, by decide, by decide, by decide, ?_⟩
  have hrun : (Diagnostics.run_bootstrap_oaxaca
      [⟨"A", some 2024, some "ALWAYS_IN", 1⟩, ⟨"A", some 2025, some "ALWAYS_IN", 1⟩,
        ⟨"B", some 2025, some "ENTRY", 0⟩]
      [(["A"], ["A", "A"])]).delta_total_ci95_low = 0
      ∧ (Diagnostics.run_bootstrap_oaxaca
      [⟨"A", some 2024, some "ALWAYS_IN", 1⟩, ⟨"A", some 2025, some "ALWAYS_IN", 1⟩,
        ⟨"B", some 2025, some "ENTRY", 0⟩]
      [(["A"], ["A", "A"])]).delta_total_pp = -50 := by
    constructor <;>
      · simp +decide [Diagnostics.run_bootstrap_oaxaca, Diagnostics.oaxaca_aggregate_single,
          Oaxaca.qmean, Diagnostics.npPercentile, Diagnostics.pyRound2,
          Diagnostics.bankersRound, List.insertionSort, List.orderedInsert]
        all_goals norm_num [Int.fract]
  rw [hrun.1, hrun.2]
  norm_num

/-- C7 (amended): the percentile bootstrap interval of
`run_bootstrap_oaxaca` is not guaranteed to contain the point estimate
for arbitrary resamples; it does contain it (indeed collapses onto it)
whenever every bootstrap draw covers every entity of its year — then
each replicate equals the full-sample estimate and all six interval
bounds coincide with the corresponding point estimates. -/
theorem bootstrap_ci_contains_point_estimate_on_full_draws
    (panel : List Diagnostics.DiagRow) (draws : List (List String × List String))
    (hne : draws ≠ [])
    (hfull : ∀ d ∈ draws,
      (∀ r ∈ panel.filter (fun r => r.anio == some 2024), d.1.contains r.sec_ejec)
      ∧ (∀ r ∈ panel.filter (fun r => r.anio == some 2025), d.2.contains r.sec_ejec)) :
    ((Diagnostics.run_bootstrap_oaxaca panel draws).delta_total_ci95_low
        ≤ (Diagnostics.run_bootstrap_oaxaca panel draws).delta_total_pp
      ∧ (Diagnostics.run_bootstrap_oaxaca panel draws).delta_total_pp
        ≤ (Diagnostics.run_bootstrap_oaxaca panel draws).delta_total_ci95_high)
    ∧ ((Diagnostics.run_bootstrap_oaxaca panel draws).delta_behavior_ci95_low
        ≤ (Diagnostics.run_bootstrap_oaxaca panel draws).delta_behavior_pp
      ∧ (Diagnostics.run_bootstrap_oaxaca panel draws).delta_behavior_pp
        ≤ (Diagnostics.run_bootstrap_oaxaca panel draws).delta_behavior_ci95_high)
    ∧ ((Diagnostics.run_bootstrap_oaxaca panel draws).delta_composition_ci95_low
        ≤ (Diagnostics.run_bootstrap_oaxaca panel draws).delta_composition_pp
      ∧ (Diagnostics.run_bootstrap_oaxaca panel draws).delta_composition_pp
        ≤ (Diagnostics.run_bootstrap_oaxaca panel draws).delta_composition_ci95_high) := by
  have hfilter : ∀ d ∈ draws,
      (panel.filter (fun r => r.anio == some 2024)).filter
          (fun r => d.1.contains r.sec_ejec)
        = panel.filter (fun r => r.anio == some 2024)
      ∧ (panel.filter (fun r => r.anio == some 2025)).filter
          (fun r => d.2.contains r.sec_ejec)
        = panel.filter (fun r => r.anio == some 2025) := by
    intro d hd
    exact ⟨List.filter_eq_self.mpr (hfull d hd).1, List.filter_eq_self.mpr (hfull d hd).2⟩
  have hboots : ∀ x ∈ draws.map (fun d =>
      Diagnostics.oaxaca_aggregate_single
        ((panel.filter (fun r => r.anio == some 2024)).filter
          (fun r => d.1.contains r.sec_ejec))
        ((panel.filter (fun r => r.anio == some 2025)).filter
          (fun r => d.2.contains r.sec_ejec))),
      x = Diagnostics.oaxaca_aggregate_single
        (panel.filter (fun r => r.anio == some 2024))
        (panel.filter (fun r => r.anio == some 2025)) := by
    intro x hx
    obtain ⟨d, hd, rfl⟩ := List.mem_map.mp hx
    rw [(hfilter d hd).1, (hfilter d hd).2]
  have hne2 : draws.map (fun d =>
      Diagnostics.oaxaca_aggregate_single
        ((panel.filter (fun r => r.anio == some 2024)).filter
          (fun r => d.1.contains r.sec_ejec))
        ((panel.filter (fun r => r.anio == some 2025)).filter
          (fun r => d.2.contains r.sec_ejec))) ≠ [] := by
    simpa using hne
  simp only [Diagnostics.run_bootstrap_oaxaca]
  rw [npPercentile_all_eq (5/2) (by norm_num) (by norm_num) _ _
      (by simpa using hne2) (fun y hy => by
        obtain ⟨t, ht, rfl⟩ := List.mem_map.mp hy
        rw [hboots t ht]),
    npPercentile_all_eq (195/2) (by norm_num) (by norm_num) _ _
      (by simpa using hne2) (fun y hy => by
        obtain ⟨t, ht, rfl⟩ := List.mem_map.mp hy
        rw [hboots t ht]),
    npPercentile_all_eq (5/2) (by norm_num) (by norm_num) _ _
      (by simpa using hne2) (fun y hy => by
        obtain ⟨t, ht, rfl⟩ := List.mem_map.mp hy
        rw [hboots t ht]),
    npPercentile_all_eq (195/2) (by norm_num) (by norm_num) _ _
      (by simpa using hne2) (fun y hy => by
        obtain ⟨t, ht, rfl⟩ := List.mem_map.mp hy
        rw [hboots t ht]),
    npPercentile_all_eq (5/2) (by norm_num) (by norm_num) _ _
      (by simpa using hne2) (fun y hy => by
        obtain ⟨t, ht, rfl⟩ := List.mem_map.mp hy
        rw [hboots t ht]),
    npPercentile_all_eq (195/2) (by norm_num) (by norm_num) _ _
      (by simpa using hne2) (fun y hy => by
        obtain ⟨t, ht, rfl⟩ := List.mem_map.mp hy
        rw [hboots t ht])]
  exact ⟨⟨le_refl _, le_refl _⟩, ⟨le_refl _, le_refl _⟩, le_refl _, le_refl _⟩

/-- Witness for the amended C7: a two-row panel with a single entity
per year and the full-entity draw; all three intervals contain their
point estimates. -/
theorem bootstrap_ci_contains_witness :
    ((Diagnostics.run_bootstrap_oaxaca
        [⟨"A", some 2024, some "ALWAYS_IN", 1⟩, ⟨"A", some 2025, some "ALWAYS_IN", 1⟩]
        [(["A"], ["A"])]).delta_total_ci95_low
      ≤ (Diagnostics.run_bootstrap_oaxaca
        [⟨"A", some 2024, some "ALWAYS_IN", 1⟩, ⟨"A", some 2025, some "ALWAYS_IN", 1⟩]
        [(["A"], ["A"])]).delta_total_pp)
    ∧ ((Diagnostics.run_bootstrap_oaxaca
        [⟨"A", some 2024, some "ALWAYS_IN", 1⟩, ⟨"A", some 2025, some "ALWAYS_IN", 1⟩]
        [(["A"], ["A"])]).delta_total_pp
      ≤ (Diagnostics.run_bootstrap_oaxaca
        [⟨"A", some 2024, some "ALWAYS_IN", 1⟩, ⟨"A", some 2025, some "ALWAYS_IN", 1⟩]
        [(["A"], ["A"])]).delta_total_ci95_high) :=
  (bootstrap_ci_contains_point_estimate_on_full_draws
    [⟨"A", some 2024, some "ALWAYS_IN", 1⟩, ⟨"A", some 2025, some "ALWAYS_IN", 1⟩]
    [(["A"], ["A"])] (by decide) (by decide)).1

/- ---------------------------------------------------------------------
   C9: analisis/did_psm/run_did_psm.py — nearest_neighbor_matching
   (lines 117–152).
--------------------------------------------------------------------- -/

namespace Psm

/-- A row of the propensity-score frame returned by
`estimate_propensity_score`. -/
structure PsRow where
  sec_ejec : String
  switcher : Int
  pscore : ℚ
  log_pia : ℚ
  log_pim : ℚ
deriving DecidableEq, Repr

/-- A row of the `matched_pairs` frame. -/
structure MatchedPair where
  treated_sec_ejec : String
  control_sec_ejec : String
  treated_pscore : ℚ
  control_pscore : ℚ
  distance : ℚ
deriving DecidableEq, Repr

/-- Select, among the still-unused enumerated controls, the one closest
to the treated propensity score `t` (1-dimensional Euclidean distance
`|t - pscore|`), breaking distance ties towards the lower index — the
control the code's scan over the stable `np.argsort` order reaches
first.  Returns the control's index, row, and distance. -/
def pickMin (t : ℚ) : List (Nat × PsRow) → Option (Nat × PsRow × ℚ)
  | [] => none
  | ic :: rest =>
    match pickMin t rest with
    | none => some (ic.1, ic.2, |t - ic.2.pscore|)
    | some (j, c, d) =>
      if |t - ic.2.pscore| ≤ d then some (ic.1, ic.2, |t - ic.2.pscore|)
      else some (j, c, d)

/-- The inner loop of `nearest_neighbor_matching` for one treated row:
the first unused control in `np.argsort(dists)` order. -/
def findBest (t : ℚ) (controls : List PsRow) (used : List Nat) :
    Option (Nat × PsRow × ℚ) :=
  pickMin t (controls.enum.filter (fun ic => decide (ic.1 ∉ used)))

/-- The outer loop of `nearest_neighbor_matching`: for each treated row
in order, match the nearest not-yet-used control provided its distance
is within the caliper, then mark that control used.  Pairs are returned
with the matched control's index for bookkeeping (the code's
`control_used` set of frame indices). -/
def nnMatchGo (caliper : ℚ) (controls : List PsRow) :
    List PsRow → List Nat → List (Nat × MatchedPair)
  | [], _ => []
  | t :: ts, used =>
    match findBest t.pscore controls used with
    | some (j, c, d) =>
      if d ≤ caliper then
        (j, { treated_sec_ejec := t.sec_ejec
              control_sec_ejec := c.sec_ejec
              treated_pscore := t.pscore
              control_pscore := c.pscore
              distance := d }) :: nnMatchGo caliper controls ts (j :: used)
      else nnMatchGo caliper controls ts used
    | none => nnMatchGo caliper controls ts used

/-- `nearest_neighbor_matching` (lines 117–152): 1:1 nearest-neighbour
matching without replacement within the caliper. -/
def nearest_neighbor_matching (pscore_df : List PsRow) (caliper : ℚ) :
    List MatchedPair :=
  let treated := pscore_df.filter (fun r => r.switcher == 1)
  let control := pscore_df.filter (fun r => r.switcher == 0)
  if treated.isEmpty || control.isEmpty then []
  else (nnMatchGo caliper control treated []).map Prod.snd

end Psm

namespace Psm

theorem pickMin_mem {t : ℚ} :
    ∀ {l : List (Nat × PsRow)} {j : Nat} {c : PsRow} {d : ℚ},
      pickMin t l = some (j, c, d) → (j, c) ∈ l ∧ d = |t - c.pscore| := by
  intro l
  induction l with
  | nil => intro j c d h; simp [pickMin] at h
  | cons ic rest ih =>
    intro j c d h
    rw [pickMin] at h
    split at h
    · simp only [Option.some.injEq, Prod.mk.injEq] at h
      obtain ⟨h1, h2, h3⟩ := h
      subst h1; subst h2; subst h3
      exact ⟨List.mem_cons_self _ _, rfl⟩
    · rename_i j2 c2 d2 heq
      split at h
      · simp only [Option.some.injEq, Prod.mk.injEq] at h
        obtain ⟨h1, h2, h3⟩ := h
        subst h1; subst h2; subst h3
        exact ⟨List.mem_cons_self _ _, rfl⟩
      · simp only [Option.some.injEq, Prod.mk.injEq] at h
        obtain ⟨h1, h2, h3⟩ := h
        subst h1; subst h2; subst h3
        obtain ⟨hm, hd⟩ := ih heq
        exact ⟨List.mem_cons_of_mem _ hm, hd⟩

theorem pickMin_min {t : ℚ} :
    ∀ {l : List (Nat × PsRow)} {j : Nat} {c : PsRow} {d : ℚ},
      pickMin t l = some (j, c, d) → ∀ jc ∈ l, d ≤ |t - jc.2.pscore| := by
  intro l
  induction l with
  | nil => intro j c d h; simp [pickMin] at h
  | cons ic rest ih =>
    intro j c d h jc hjc
    rw [pickMin] at h
    split at h
    · rename_i heq
      simp only [Option.some.injEq, Prod.mk.injEq] at h
      obtain ⟨h1, h2, h3⟩ := h
      subst h1; subst h2; subst h3
      rcases List.mem_cons.mp hjc with rfl | hjc2
      · exact le_refl _
      · cases hr : rest with
        | nil => rw [hr] at hjc2; cases hjc2
        | cons a as =>
          rw [hr] at heq
          rw [pickMin] at heq
          split at heq
          · cases heq
          · split at heq <;> cases heq
    · rename_i j2 c2 d2 heq
      split at h
      · rename_i hle
        simp only [Option.some.injEq, Prod.mk.injEq] at h
        obtain ⟨h1, h2, h3⟩ := h
        subst h1; subst h2; subst h3
        rcases List.mem_cons.mp hjc with rfl | hjc2
        · exact le_refl _
        · exact le_trans hle (ih heq jc hjc2)
      · rename_i hle
        simp only [Option.some.injEq, Prod.mk.injEq] at h
        obtain ⟨h1, h2, h3⟩ := h
        subst h1; subst h2; subst h3
        rcases List.mem_cons.mp hjc with rfl | hjc2
        · exact le_of_lt (lt_of_not_le hle)
        · exact ih heq jc hjc2

theorem findBest_spec {t : ℚ} {controls : List PsRow} {used : List Nat}
    {j : Nat} {c : PsRow} {d : ℚ}
    (h : findBest t controls used = some (j, c, d)) :
    (j, c) ∈ controls.enum ∧ j ∉ used ∧ d = |t - c.pscore|
      ∧ ∀ jc ∈ controls.enum, jc.1 ∉ used → d ≤ |t - jc.2.pscore| := by
  obtain ⟨hm, hd⟩ := pickMin_mem h
  have hmem := List.mem_filter.mp hm
  refine ⟨hmem.1, by simpa using hmem.2, hd, ?_⟩
  intro jc hjc hun
  exact pickMin_min h jc (List.mem_filter.mpr ⟨hjc, by simpa using hun⟩)

theorem nnMatchGo_pairs (caliper : ℚ) (controls : List PsRow) :
    ∀ (ts : List PsRow) (used : List Nat), ∀ p ∈ nnMatchGo caliper controls ts used,
      p.2.distance ≤ caliper
      ∧ p.2.distance = |p.2.treated_pscore - p.2.control_pscore|
      ∧ ∃ c, (p.1, c) ∈ controls.enum ∧ p.2.control_sec_ejec = c.sec_ejec
          ∧ p.2.control_pscore = c.pscore := by
  intro ts
  induction ts with
  | nil => intro used p hp; simp [nnMatchGo] at hp
  | cons t ts ih =>
    intro used p hp
    rw [nnMatchGo] at hp
    split at hp
    · rename_i j c d heq
      split at hp
      · rename_i hcal
        rcases List.mem_cons.mp hp with rfl | hp2
        · obtain ⟨hm, hnu, hd, -⟩ := findBest_spec heq
          exact ⟨hcal, hd, c, hm, rfl, rfl⟩
        · exact ih (j :: used) p hp2
      · exact ih used p hp
    · exact ih used p hp

theorem nnMatchGo_treated_mem (caliper : ℚ) (controls : List PsRow) :
    ∀ (ts : List PsRow) (used : List Nat), ∀ p ∈ nnMatchGo caliper controls ts used,
      p.2.treated_sec_ejec ∈ ts.map (fun r => r.sec_ejec) := by
  intro ts
  induction ts with
  | nil => intro used p hp; simp [nnMatchGo] at hp
  | cons t ts ih =>
    intro used p hp
    rw [nnMatchGo] at hp
    split at hp
    · rename_i j c d heq
      split at hp
      · rcases List.mem_cons.mp hp with rfl | hp2
        · exact List.mem_cons_self _ _
        · exact List.mem_cons_of_mem _ (ih (j :: used) p hp2)
      · exact List.mem_cons_of_mem _ (ih used p hp)
    · exact List.mem_cons_of_mem _ (ih used p hp)

theorem nnMatchGo_idx_nodup (caliper : ℚ) (controls : List PsRow) :
    ∀ (ts : List PsRow) (used : List Nat),
      ((nnMatchGo caliper controls ts used).map Prod.fst).Nodup
      ∧ ∀ p ∈ nnMatchGo caliper controls ts used, p.1 ∉ used := by
  intro ts
  induction ts with
  | nil => intro used; simp [nnMatchGo]
  | cons t ts ih =>
    intro used
    rw [nnMatchGo]
    split
    · rename_i j c d heq
      split
      · obtain ⟨-, hnu, -, -⟩ := findBest_spec heq
        refine ⟨List.nodup_cons.mpr ⟨?_, (ih (j :: used)).1⟩, ?_⟩
        · intro hmem
          obtain ⟨p, hp, hpj⟩ := List.mem_map.mp hmem
          exact ((ih (j :: used)).2 p hp) (hpj ▸ List.mem_cons_self _ _)
        · intro p hp
          rcases List.mem_cons.mp hp with rfl | hp2
          · exact hnu
          · intro hc
            exact ((ih (j :: used)).2 p hp2) (List.mem_cons_of_mem _ hc)
      · exact ih used
    · exact ih used

theorem nnMatchGo_treated_nodup (caliper : ℚ) (controls : List PsRow) :
    ∀ (ts : List PsRow) (used : List Nat), ((ts.map (fun r => r.sec_ejec)).Nodup) →
      ((nnMatchGo caliper controls ts used).map
        (fun p => p.2.treated_sec_ejec)).Nodup := by
  intro ts
  induction ts with
  | nil => intro used _; simp [nnMatchGo]
  | cons t ts ih =>
    intro used hnod
    rw [List.map_cons, List.nodup_cons] at hnod
    rw [nnMatchGo]
    split
    · rename_i j c d heq
      split
      · refine List.nodup_cons.mpr ⟨?_, ih (j :: used) hnod.2⟩
        intro hmem
        obtain ⟨p, hp, hps⟩ := List.mem_map.mp hmem
        apply hnod.1
        have hm := nnMatchGo_treated_mem caliper controls ts (j :: used) p hp
        rw [show p.2.treated_sec_ejec = t.sec_ejec from hps] at hm
        exact hm
      · exact ih used hnod.2
    · exact ih used hnod.2

theorem nnMatchGo_nearest (caliper : ℚ) (controls : List PsRow) :
    ∀ (ts : List PsRow) (used : List Nat), ∀ jc ∈ controls.enum, jc.1 ∉ used →
      ∀ (i : Nat) (hi : i < (nnMatchGo caliper controls ts used).length),
        jc.1 ∉ ((nnMatchGo caliper controls ts used).take i).map Prod.fst →
        ((nnMatchGo caliper controls ts used).get ⟨i, hi⟩).2.distance
          ≤ |((nnMatchGo caliper controls ts used).get ⟨i, hi⟩).2.treated_pscore
              - jc.2.pscore| := by
  intro ts
  induction ts with
  | nil =>
    intro used jc hjc hnu i hi
    simp [nnMatchGo] at hi
  | cons t ts ih =>
    intro used jc hjc hnu
    rcases heq : findBest t.pscore controls used with - | ⟨j, c, d⟩
    · have hR : nnMatchGo caliper controls (t :: ts) used
          = nnMatchGo caliper controls ts used := by
        rw [nnMatchGo, heq]
      rw [hR]
      exact ih used jc hjc hnu
    · by_cases hcal : d ≤ caliper
      · have hR : nnMatchGo caliper controls (t :: ts) used
            = (j, { treated_sec_ejec := t.sec_ejec
                    control_sec_ejec := c.sec_ejec
                    treated_pscore := t.pscore
                    control_pscore := c.pscore
                    distance := d })
              :: nnMatchGo caliper controls ts (j :: used) := by
          simp only [nnMatchGo, heq, if_pos hcal]
        rw [hR]
        intro i hi hnt
        cases i with
        | zero =>
          exact (findBest_spec heq).2.2.2 jc hjc hnu
        | succ i2 =>
          rw [List.take_succ_cons, List.map_cons, List.mem_cons] at hnt
          push_neg at hnt
          have hnu2 : jc.1 ∉ j :: used := by
            rw [List.mem_cons]
            push_neg
            exact ⟨hnt.1, hnu⟩
          have hi2 : i2 < (nnMatchGo caliper controls ts (j :: used)).length :=
            Nat.lt_of_succ_lt_succ (by simpa using hi)
          exact ih (j :: used) jc hjc hnu2 i2 hi2 hnt.2
      · have hR : nnMatchGo caliper controls (t :: ts) used
            = nnMatchGo caliper controls ts used := by
          simp only [nnMatchGo, heq, if_neg hcal]
        rw [hR]
        exact ih used jc hjc hnu

end Psm

/-- Transport `Nodup` along a second projection that refines the
first. -/
theorem nodup_map_of_related {α β κ : Type} (R : List α) (f : α → κ) (g : α → β)
    (hfnd : (R.map f).Nodup)
    (hrel : ∀ p ∈ R, ∀ q ∈ R, g p = g q → f p = f q) :
    (R.map g).Nodup := by
  induction R with
  | nil => simp
  | cons a as ih =>
    rw [List.map_cons, List.nodup_cons] at hfnd ⊢
    refine ⟨?_, ih hfnd.2
      (fun p hp q hq => hrel p (List.mem_cons_of_mem _ hp) q (List.mem_cons_of_mem _ hq))⟩
    intro hmem
    obtain ⟨q, hq, hgq⟩ := List.mem_map.mp hmem
    have hfq := hrel q (List.mem_cons_of_mem _ hq) a (List.mem_cons_self _ _) hgq
    exact hfnd.1 (hfq ▸ List.mem_map_of_mem f hq)

namespace Psm

theorem mem_enum_of_mem {l : List PsRow} {a : PsRow} (h : a ∈ l) :
    ∃ j, (j, a) ∈ l.enum := by
  obtain ⟨n, hn, he⟩ := List.mem_iff_getElem.mp h
  refine ⟨n, List.mem_enum_iff_getElem?.mpr ?_⟩
  show l[n]? = some a
  rw [List.getElem?_eq_getElem hn]
  simpa using he

theorem enum_sec_unique {controls : List PsRow}
    (hc : (controls.map (fun r => r.sec_ejec)).Nodup)
    {j1 j2 : Nat} {c1 c2 : PsRow}
    (h1 : (j1, c1) ∈ controls.enum) (h2 : (j2, c2) ∈ controls.enum)
    (hsec : c1.sec_ejec = c2.sec_ejec) : j1 = j2 := by
  have hcnd : controls.Nodup := hc.of_map
  have e1 : controls[j1]? = some c1 := by
    rw [← List.get?_eq_getElem?]
    simpa using List.mem_enum_iff_getElem?.mp h1
  have e2 : controls[j2]? = some c2 := by
    rw [← List.get?_eq_getElem?]
    simpa using List.mem_enum_iff_getElem?.mp h2
  have hm1 : c1 ∈ controls := List.mem_iff_getElem?.mpr ⟨j1, e1⟩
  have hm2 : c2 ∈ controls := List.mem_iff_getElem?.mpr ⟨j2, e2⟩
  have hceq : c1 = c2 := List.inj_on_of_nodup_map hc hm1 hm2 hsec
  have hj1len : j1 < controls.length := by
    by_contra hlen
    rw [List.getElem?_eq_none (le_of_not_lt hlen)] at e1
    cases e1
  apply List.getElem?_inj hj1len hcnd
  rw [e1, e2, hceq]

end Psm

/-- C9: `nearest_neighbor_matching` returns a 1:1 matching without
replacement within the caliper: every pair's distance is at most the
caliper and equals `|treated_pscore - control_pscore|`; no treated
entity and no control entity appears in two pairs (given unique entity
keys in the propensity frame, as `get_baseline_characteristics`
guarantees by deduplicating on `sec_ejec`); and each matched treated
row is paired with a nearest control among those not used by the
earlier pairs, within the caliper. -/
theorem nearest_neighbor_matching_spec (df : List Psm.PsRow) (caliper : ℚ)
    (ht : ((df.filter (fun r => r.switcher == 1)).map (fun r => r.sec_ejec)).Nodup)
    (hc : ((df.filter (fun r => r.switcher == 0)).map (fun r => r.sec_ejec)).Nodup) :
    (∀ p ∈ Psm.nearest_neighbor_matching df caliper,
      p.distance ≤ caliper ∧ p.distance = |p.treated_pscore - p.control_pscore|)
    ∧ ((Psm.nearest_neighbor_matching df caliper).map
        (fun p => p.treated_sec_ejec)).Nodup
    ∧ ((Psm.nearest_neighbor_matching df caliper).map
        (fun p => p.control_sec_ejec)).Nodup
    ∧ (∀ (i : Nat) (hi : i < (Psm.nearest_neighbor_matching df caliper).length),
        ∀ cr ∈ df.filter (fun r => r.switcher == 0),
          cr.sec_ejec ∉ ((Psm.nearest_neighbor_matching df caliper).take i).map
            (fun p => p.control_sec_ejec) →
          ((Psm.nearest_neighbor_matching df caliper).get ⟨i, hi⟩).distance
            ≤ |((Psm.nearest_neighbor_matching df caliper).get ⟨i, hi⟩).treated_pscore
                - cr.pscore|) := by
  by_cases hemp : ((df.filter (fun r => r.switcher == 1)).isEmpty
      || (df.filter (fun r => r.switcher == 0)).isEmpty) = true
  · have hR : Psm.nearest_neighbor_matching df caliper = [] := by
      simp only [Psm.nearest_neighbor_matching, hemp, if_true]
    rw [hR]
    refine ⟨by simp, by simp, by simp, ?_⟩
    intro i hi
    simp at hi
  · have hR : Psm.nearest_neighbor_matching df caliper
        = (Psm.nnMatchGo caliper (df.filter (fun r => r.switcher == 0))
            (df.filter (fun r => r.switcher == 1)) []).map Prod.snd := by
      simp only [Psm.nearest_neighbor_matching, hemp]
      simp
    rw [hR]
    refine ⟨?_, ?_, ?_, ?_⟩
    · intro p hp
      obtain ⟨q, hq, rfl⟩ := List.mem_map.mp hp
      have hfacts := Psm.nnMatchGo_pairs caliper _ _ [] q hq
      exact ⟨hfacts.1, hfacts.2.1⟩
    · rw [List.map_map]
      exact Psm.nnMatchGo_treated_nodup caliper _ _ [] ht
    · rw [List.map_map]
      have hidx := (Psm.nnMatchGo_idx_nodup caliper (df.filter (fun r => r.switcher == 0))
        (df.filter (fun r => r.switcher == 1)) []).1
      apply nodup_map_of_related _ Prod.fst _ hidx
      intro p hp q hq hsec
      obtain ⟨cp, hcp, hcps, -⟩ := (Psm.nnMatchGo_pairs caliper _ _ [] p hp).2.2
      obtain ⟨cq, hcq, hcqs, -⟩ := (Psm.nnMatchGo_pairs caliper _ _ [] q hq).2.2
      have hsec2 : cp.sec_ejec = cq.sec_ejec := by
        rw [← hcps, ← hcqs]
        exact congrArg (fun x => x) hsec
      exact Psm.enum_sec_unique hc hcp hcq hsec2
    · intro i hi cr hcr hnotin
      have hi2 : i < (Psm.nnMatchGo caliper (df.filter (fun r => r.switcher == 0))
          (df.filter (fun r => r.switcher == 1)) []).length := by
        simpa using hi
      obtain ⟨j, hj⟩ := Psm.mem_enum_of_mem hcr
      have hjtake : j ∉ ((Psm.nnMatchGo caliper (df.filter (fun r => r.switcher == 0))
          (df.filter (fun r => r.switcher == 1)) []).take i).map Prod.fst := by
        intro hjin
        obtain ⟨p, hp, hpj⟩ := List.mem_map.mp hjin
        have hpR : p ∈ Psm.nnMatchGo caliper (df.filter (fun r => r.switcher == 0))
            (df.filter (fun r => r.switcher == 1)) [] :=
          List.mem_of_mem_take hp
        obtain ⟨cp, hcp, hcps, -⟩ := (Psm.nnMatchGo_pairs caliper _ _ [] p hpR).2.2
        have hcpcr : cp = cr := by
          have hj2 : (p.1, cp) ∈ (df.filter (fun r => r.switcher == 0)).enum := hcp
          rw [hpj] at hj2
          have e1 : (df.filter (fun r => r.switcher == 0))[j]? = some cp :=
            List.mem_enum_iff_getElem?.mp hj2
          have e2 : (df.filter (fun r => r.switcher == 0))[j]? = some cr :=
            List.mem_enum_iff_getElem?.mp hj
          have h12 := e1.symm.trans e2
          injection h12
        apply hnotin
        have hmem2 : p.2.control_sec_ejec ∈ (((Psm.nnMatchGo caliper
            (df.filter (fun r => r.switcher == 0))
            (df.filter (fun r => r.switcher == 1)) []).take i).map
              (fun q => q.2.control_sec_ejec)) :=
          List.mem_map_of_mem _ hp
        rw [hcps, hcpcr] at hmem2
        rw [← List.map_take, List.map_map]
        exact hmem2
      have hmain := Psm.nnMatchGo_nearest caliper (df.filter (fun r => r.switcher == 0))
        (df.filter (fun r => r.switcher == 1)) [] (j, cr) hj (List.not_mem_nil j)
        i hi2 hjtake
      have hget : ((Psm.nnMatchGo caliper (df.filter (fun r => r.switcher == 0))
            (df.filter (fun r => r.switcher == 1)) []).map Prod.snd).get ⟨i, hi⟩
          = ((Psm.nnMatchGo caliper (df.filter (fun r => r.switcher == 0))
            (df.filter (fun r => r.switcher == 1)) []).get ⟨i, hi2⟩).2 := by
        simp [List.get_eq_getElem]
      rw [hget]
      exact hmain

/-- Witness for C9 at a concrete propensity frame (one treated, two
control rows with distinct keys): no treated and no control entity is
matched twice. -/
theorem nearest_neighbor_matching_spec_witness :
    ((Psm.nearest_neighbor_matching
        [⟨"t1", 1, 1/2, 0, 0⟩, ⟨"c1", 0, 1/4, 0, 0⟩, ⟨"c2", 0, 2, 0, 0⟩] (1/2)).map
      (fun p => p.treated_sec_ejec)).Nodup
    ∧ ((Psm.nearest_neighbor_matching
        [⟨"t1", 1, 1/2, 0, 0⟩, ⟨"c1", 0, 1/4, 0, 0⟩, ⟨"c2", 0, 2, 0, 0⟩] (1/2)).map
      (fun p => p.control_sec_ejec)).Nodup :=
  ⟨(nearest_neighbor_matching_spec
      [⟨"t1", 1, 1/2, 0, 0⟩, ⟨"c1", 0, 1/4, 0, 0⟩, ⟨"c2", 0, 2, 0, 0⟩] (1/2)
      (by decide) (by decide)).2.1,
    (nearest_neighbor_matching_spec
      [⟨"t1", 1, 1/2, 0, 0⟩, ⟨"c1", 0, 1/4, 0, 0⟩, ⟨"c2", 0, 2, 0, 0⟩] (1/2)
      (by decide) (by decide)).2.2.1⟩
